import Mathlib

/-!
# FacetSurfaceFESpace: DOF numbering, coupling classification, multilevel bookkeeping

A shallow embedding of `comp/facetsurffespace.cpp` (namespace `ngcomp`), followed by
`ParallelFor` of `general/parthreads.hpp` (namespace `netgen`).

Conventions of the embedding

* C++ `int` values (`order`, `ndof`, the entries of `first_edge_dof` and `ndlevel`, DOF
  numbers) are mathematical integers (`Int`); entity counts reported by the mesh are `Nat`.
* `Array<T>` is `List T`.  Reading outside an array yields the default given to `getD`;
  writing outside an array leaves it unchanged (`List.set`).
* `throw Exception(msg)` is `Except.error (Exception.Exception msg)`.
* The mesh (`ma`) and the defined-on predicate of the base class are passed explicitly to
  every member function that consults them, since both live outside the space.
-/

set_option linter.dupNamespace false

namespace ngcomp

/-! ## Collaborators declared outside the translation unit -/

/-- Codimension tag of an element id (`VorB`). -/
inductive VorB where
  | VOL
  | BND
  | BBND
  | BBBND
deriving DecidableEq, Repr

/-- Reference shapes of mesh elements (`ELEMENT_TYPE`). -/
inductive ELEMENT_TYPE where
  | ET_POINT
  | ET_SEGM
  | ET_TRIG
  | ET_QUAD
  | ET_TET
  | ET_PYRAMID
  | ET_PRISM
  | ET_HEX
deriving DecidableEq, Repr

/-- An element id: codimension tag and element number (`ElementId(BND,i)`, `ei.VB()`,
`ei.Nr()`). -/
structure ElementId where
  VB : VorB
  Nr : Nat
deriving DecidableEq, Repr

/-- Modelled from the spec: the coupling classes of a DOF (the enum `COUPLING_TYPE` is declared
outside this file); the spec lists exactly `Unused`, `Wirebasket` and `Local`. -/
inductive COUPLING_TYPE where
  | UNUSED_DOF
  | LOCAL_DOF
  | WIREBASKET_DOF
deriving DecidableEq, Repr

/-- The exceptions raised in this file: the two classes it throws itself, each carrying its
message, and the failure the array library raises when `SetSize` is handed a negative size,
which it reads as a huge unsigned one (the class `Array` is declared outside this file). -/
inductive Exception where
  | Exception (what : String)
  | ExceptionNOSIMD (what : String)
  | AllocationFailure
deriving DecidableEq, Repr

/-- The read-only mesh queries used by the space (`ma->...`). -/
structure MeshAccess where
  /-- Embedding dimension, `ma->GetDimension()`. -/
  GetDimension : Int
  /-- Number of surface elements, `ma->GetNSE()`. -/
  GetNSE : Nat
  /-- Number of edges, `ma->GetNEdges()`. -/
  GetNEdges : Nat
  /-- Number of refinement levels, `ma->GetNLevels()`. -/
  GetNLevels : Nat
  /-- Edge numbers of an element in the element's own order, `ma->GetElEdges(ei)`. -/
  GetElEdges : ElementId → List Nat
  /-- Reference shape of an element, `ma->GetElType(ei)`. -/
  GetElType : ElementId → ELEMENT_TYPE
  /-- Vertex numbers of an element, `ma->GetElVertices(ei)`; none recorded unless given. -/
  GetElVertices : ElementId → List Nat := fun _ => []
  /-- Vertex numbers of `ma->GetElement<DIM,VB>(elnr)`, by `DIM`, `VB` and `elnr`; none
  recorded unless given. -/
  GetElementVertices : Nat → VorB → Nat → List Nat := fun _ _ _ => []

/-- The flags read by the constructor.  Numeric flags are doubles in the source; every read in
this file is of the form `int (flags.GetNumFlag (...))`, so the table stores that integer. -/
structure Flags where
  numflags : String → Option Int
  defineflags : String → Bool

/-- The call `flags.GetDefineFlag (name)`. -/
def Flags.GetDefineFlag (flags : Flags) (name : String) : Bool :=
  flags.defineflags name

/-- The call `flags.NumFlagDefined (name)`. -/
def Flags.NumFlagDefined (flags : Flags) (name : String) : Bool :=
  (flags.numflags name).isSome

/-- The call `int (flags.GetNumFlag (name, def))`. -/
def Flags.GetNumFlag (flags : Flags) (name : String) (default : Int) : Int :=
  (flags.numflags name).getD default

/-- A half-open range of integers `[first, next)` (`IntRange`). -/
structure IntRange where
  first : Int
  next : Int
deriving DecidableEq, Repr

/-- Number of entries of a range, `Size() = next - first`. -/
def IntRange.Size (r : IntRange) : Int :=
  r.next - r.first

/-- The entries of a range in increasing order, `first, first+1, ..., next-1`. -/
def IntRange.toList (r : IntRange) : List Int :=
  (List.range r.Size.toNat).map (fun (j : Nat) => r.first + (j : Int))

/-- The call `a.SetSize (n)`: keeps the first `n` entries; fresh entries hold `fresh`. -/
def SetSize {α : Type} (a : List α) (n : Nat) (fresh : α) : List α :=
  a.take n ++ List.replicate (n - a.length) fresh

/-- The assignment `a = val` of one value to every entry of an array. -/
def AssignAll {α : Type} (a : List α) (val : α) : List α :=
  List.replicate a.length val

/-- The write `a[i] = val` at an integer index; an index outside the array writes nothing. -/
def SetAt {α : Type} (a : List α) (i : Int) (val : α) : List α :=
  match i with
  | Int.ofNat n => a.set n val
  | Int.negSucc _ => a

/-- The slice assignment `a[r] = val`: the entries `first, ..., next-1` are overwritten one
after the other. -/
def AssignRange {α : Type} (a : List α) (r : IntRange) (val : α) : List α :=
  (List.range r.Size.toNat).foldl (fun acc (j : Nat) => SetAt acc (r.first + (j : Int)) val) a

/-- The write `a.Last() = val`, at index `Size()-1`; on an empty array there is no such entry
and nothing is written. -/
def SetLast {α : Type} (a : List α) (val : α) : List α :=
  a.set (a.length - 1) val

/-! ## The space -/

/-- The data members of `FacetSurfaceFESpace` that this file reads or writes. -/
structure FacetSurfaceFESpace where
  order : Int
  rel_order : Int
  var_order : Bool
  nowirebasket : Bool
  nel : Nat
  nfa : Nat
  ndof : Int
  first_edge_dof : List Int
  ndlevel : List Int
  ctofdof : List COUPLING_TYPE
deriving DecidableEq, Repr

/-- Modelled from the spec: `GetEdgeDofs(e) = [first_edge_dof[e], first_edge_dof[e+1])`; the
member function is defined in the class header, outside this file. -/
def FacetSurfaceFESpace.GetEdgeDofs (s : ngcomp.FacetSurfaceFESpace) (nr : Nat) : IntRange :=
  { first := s.first_edge_dof.getD nr 0, next := s.first_edge_dof.getD (nr + 1) 0 }

/-- The member `GetNDof ()` (line 407): returns `ndof`. -/
def FacetSurfaceFESpace.GetNDof (s : ngcomp.FacetSurfaceFESpace) : Int :=
  s.ndof

/-- The member `GetNDofLevel (level)` (line 413): `ndlevel[level]`, `none` outside the array. -/
def FacetSurfaceFESpace.GetNDofLevel (s : ngcomp.FacetSurfaceFESpace) (level : Nat) :
    Option Int :=
  s.ndlevel[level]?

/-- The edge loop of `Update` (lines 274-279): for `i = 0, ..., nfa-1` store the running
count in `first_edge_dof[i]` and advance it by `order+1`.  The state is the pair
`(first_edge_dof, ndof)`. -/
def edgeLoop (order : Int) (nfa : Nat) (st : List Int × Int) : List Int × Int :=
  (List.range nfa).foldl (fun acc i => (acc.1.set i acc.2, acc.2 + (order + 1))) st

/-- The loop `while (ma->GetNLevels() > ndlevel.Size()) ndlevel.Append (ndof);` (lines
287-288), run for at most `fuel` iterations. -/
def appendLevels (nlevels : Nat) (ndof : Int) : Nat → List Int → List Int
  | 0, ndlevel => ndlevel
  | fuel + 1, ndlevel =>
    if nlevels > ndlevel.length then appendLevels nlevels ndof fuel (ndlevel ++ [ndof])
    else ndlevel

/-- The member `UpdateCouplingDofArray ()` (lines 301-320).  The call
`ctofdof.SetSize (ndof)` at line 303 fails for a negative `ndof`, and nothing after it is
run.  Otherwise the array is sized to `ndof` entries, filled with `UNUSED_DOF`, and the DOF
range of every edge of every surface element on which the space is defined is overwritten
with `WIREBASKET_DOF`. -/
def FacetSurfaceFESpace.UpdateCouplingDofArray (s : ngcomp.FacetSurfaceFESpace)
    (ma : MeshAccess) (DefinedOn : ElementId → Bool) :
    Except Exception ngcomp.FacetSurfaceFESpace :=
  if s.ndof < 0 then Except.error Exception.AllocationFailure
  else
    let ctofdof := SetSize s.ctofdof s.ndof.toNat COUPLING_TYPE.UNUSED_DOF
    let ctofdof := AssignAll ctofdof COUPLING_TYPE.UNUSED_DOF
    let ctofdof := (List.range ma.GetNSE).foldl
      (fun ct i =>
        let ei := ElementId.mk VorB.BND i
        let definedon := DefinedOn ei
        if definedon then
          (ma.GetElEdges ei).foldl
            (fun ct ed => AssignRange ct (s.GetEdgeDofs ed) COUPLING_TYPE.WIREBASKET_DOF) ct
        else ct)
      ctofdof
    Except.ok { s with ctofdof := ctofdof }

/-- The member `Update (lh)` (lines 255-299).  The call to the base class and the test output
touch none of the members modelled here.  Each iteration of the level loop lengthens
`ndlevel` by one, so `ma.GetNLevels` iterations always suffice.  An exception raised in
`UpdateCouplingDofArray` leaves `Update` as well. -/
def FacetSurfaceFESpace.Update (s : ngcomp.FacetSurfaceFESpace) (ma : MeshAccess)
    (DefinedOn : ElementId → Bool) : Except Exception ngcomp.FacetSurfaceFESpace :=
  let nel := ma.GetNSE
  let nfa := ma.GetNEdges
  let ndof : Int := 0
  let first_edge_dof := SetSize s.first_edge_dof (nfa + 1) 0
  let first_edge_dof := AssignAll first_edge_dof ndof
  let first_edge_dof := SetSize first_edge_dof (nfa + 1) 0
  let first_edge_dof := AssignAll first_edge_dof (nfa : Int)
  if ma.GetDimension = 3 then
    let st := edgeLoop s.order nfa (first_edge_dof, ndof)
    let ndof := st.2
    let first_edge_dof := st.1.set nfa ndof
    let ndlevel := appendLevels ma.GetNLevels ndof ma.GetNLevels s.ndlevel
    let ndlevel := SetLast ndlevel ndof
    let s1 : ngcomp.FacetSurfaceFESpace :=
      { s with nel := nel, nfa := nfa, ndof := ndof, first_edge_dof := first_edge_dof,
               ndlevel := ndlevel }
    s1.UpdateCouplingDofArray ma DefinedOn
  else
    Except.error (Exception.Exception "Only implemented for 3d!")

/-- The member `GetDofNrs (ei, dnums)` (lines 420-454); the result is the content of `dnums`
on return. -/
def FacetSurfaceFESpace.GetDofNrs (s : ngcomp.FacetSurfaceFESpace) (ma : MeshAccess)
    (DefinedOn : ElementId → Bool) (ei : ElementId) (dnums : List Int) : List Int :=
  let dnums := SetSize dnums 0 0
  if !DefinedOn ei then dnums
  else
    match ei.VB with
    | VorB.VOL => dnums
    | VorB.BND =>
      if ma.GetDimension = 3 then
        (ma.GetElEdges ei).foldl (fun dn ed => dn ++ (s.GetEdgeDofs ed).toList) dnums
      else dnums
    | VorB.BBND => dnums ++ (s.GetEdgeDofs ((ma.GetElEdges ei).getD 0 0)).toList
    | VorB.BBBND => dnums

/-- The constructor `FacetSurfaceFESpace (ama, flags, checkflags)` (lines 169-248).  Flag
checking, the low-order flags and the two warnings on `cerr` have no effect on the members.
Members the constructor does not assign (`nel`, `nfa`, `ndof`, the arrays other than
`ndlevel`) start at zero or empty; `Update` overwrites each of them before reading it. -/
def FacetSurfaceFESpace.FacetSurfaceFESpace (ma : MeshAccess) (flags : Flags) :
    Except Exception ngcomp.FacetSurfaceFESpace :=
  let ndlevel : List Int := SetSize [] 0 0
  let var_order := flags.GetDefineFlag "variableorder"
  let order := flags.GetNumFlag "order" 0
  let var_order :=
    if flags.NumFlagDefined "relorder" && !flags.NumFlagDefined "order" then true
    else var_order
  let rel_order := flags.GetNumFlag "relorder" (order - 1)
  let res : Bool × Int × Int :=
    if flags.NumFlagDefined "order" then
      if var_order then
        let rel_order := flags.GetNumFlag "relorder" (order - 1)
        (var_order, rel_order, rel_order + 1)
      else
        (var_order, rel_order, flags.GetNumFlag "order" 0)
    else if flags.NumFlagDefined "relorder" then
      let rel_order := flags.GetNumFlag "relorder" (-1)
      (true, rel_order, 1 + rel_order)
    else
      (var_order, -1, 0)
  let nowirebasket := flags.GetDefineFlag "nowirebasket"
  if ma.GetDimension = 2 then
    Except.error (Exception.Exception "FacetSurfaceFESpace only implemented for 3d!")
  else
    Except.ok
      { order := res.2.2, rel_order := res.2.1, var_order := res.1,
        nowirebasket := nowirebasket, nel := 0, nfa := 0, ndof := 0,
        first_edge_dof := [], ndlevel := ndlevel, ctofdof := [] }

/-- A sequence of `Update` calls, one per entry of `calls`, each with the mesh and defined-on
predicate current at that call; stops at the first call that throws. -/
def UpdateSeq (s : FacetSurfaceFESpace) :
    List (MeshAccess × (ElementId → Bool)) → Except Exception FacetSurfaceFESpace
  | [] => Except.ok s
  | call :: calls =>
    match s.Update call.1 call.2 with
    | Except.ok s1 => UpdateSeq s1 calls
    | Except.error e => Except.error e

/-- The table the edge loop is shown to produce: entry `i` is `i * (order + 1)`, for
`i = 0, ..., nfa`. -/
def dofTable (order : Int) (nfa : Nat) : List Int :=
  (List.range (nfa + 1)).map (fun (i : Nat) => (i : Int) * (order + 1))

/-- The level array `Update` is shown to produce from `ndlevel`, the level count of the mesh
and the freshly computed total. -/
def levelTable (ndlevel : List Int) (nlevels : Nat) (ndof : Int) : List Int :=
  SetLast (ndlevel ++ List.replicate (nlevels - ndlevel.length) ndof) ndof

/-- Membership of a DOF number in a range. -/
def IntRange.Contains (r : IntRange) (d : Int) : Prop :=
  r.first ≤ d ∧ d < r.next

/-- The array `b` is the array `a` with the value `val` written at every index of `a` that
satisfies `P`, and nothing else changed. -/
def Marks {α : Type} (val : α) (P : Nat → Prop) (a b : List α) : Prop :=
  b.length = a.length ∧
    ∀ k : Nat, (P k → k < a.length → b[k]? = some val) ∧ (¬ P k → b[k]? = a[k]?)

/-- The DOF number `d` lies on an edge of a surface element `i < GetNSE` on which the space is
defined. -/
def OnActiveSurface (s : FacetSurfaceFESpace) (ma : MeshAccess)
    (DefinedOn : ElementId → Bool) (d : Nat) : Prop :=
  ∃ i ∈ List.range ma.GetNSE, DefinedOn (ElementId.mk VorB.BND i) = true ∧
    ∃ ed ∈ ma.GetElEdges (ElementId.mk VorB.BND i), (s.GetEdgeDofs ed).Contains (d : Int)

/-! ## Finite elements -/

/-- The finite elements `GetFE` hands out, recorded by class and template shape together
with what `SetVertexNumbers` and `SetOrder` stored in them: `FacetFE<ET>`,
`L2HighOrderFE<ET>` and the placeholder `DummyFE<ET>`. -/
inductive FiniteElement where
  | FacetFE (ET : ELEMENT_TYPE) (vnums : List Nat) (order : Int)
  | L2HighOrderFE (ET : ELEMENT_TYPE) (vnums : List Nat) (order : Int)
  | DummyFE (ET : ELEMENT_TYPE)
deriving DecidableEq, Repr

/-- Modelled from the spec: `DummyFE` is the zero-DOF placeholder element (the class is
declared outside this file); this tells whether an element is such a placeholder. -/
def FiniteElement.IsZeroDofPlaceholder : FiniteElement → Bool
  | FiniteElement.DummyFE _ => true
  | _ => false

/-- The constant `ET_trait<ET>::DIM`, the dimension of a reference shape. -/
def ET_trait_DIM : ELEMENT_TYPE → Nat
  | ELEMENT_TYPE.ET_POINT => 0
  | ELEMENT_TYPE.ET_SEGM => 1
  | ELEMENT_TYPE.ET_TRIG => 2
  | ELEMENT_TYPE.ET_QUAD => 2
  | ELEMENT_TYPE.ET_TET => 3
  | ELEMENT_TYPE.ET_PYRAMID => 3
  | ELEMENT_TYPE.ET_PRISM => 3
  | ELEMENT_TYPE.ET_HEX => 3

/-- The member template `T_GetFE<ET> (elnr, alloc)` (lines 322-333). -/
def FacetSurfaceFESpace.T_GetFE (s : ngcomp.FacetSurfaceFESpace) (ma : MeshAccess)
    (ET : ELEMENT_TYPE) (elnr : Nat) : FiniteElement :=
  let ngel_Vertices := ma.GetElementVertices (ET_trait_DIM ET) VorB.VOL elnr
  FiniteElement.FacetFE ET ngel_Vertices s.order

/-- The member `GetFE (ei, lh)` (lines 336-403).  `GetElementName` stands for
`ElementTopology::GetElementName`, which is declared outside this file. -/
def FacetSurfaceFESpace.GetFE (s : ngcomp.FacetSurfaceFESpace) (ma : MeshAccess)
    (GetElementName : ELEMENT_TYPE → String) (ei : ElementId) :
    Except Exception FiniteElement :=
  let vnums := ma.GetElVertices ei
  match ei.VB with
  | VorB.VOL =>
    Except.error (Exception.Exception "Volume elements not available for FacetSurfaceSpace")
  | VorB.BND =>
    match ma.GetElType ei with
    | ELEMENT_TYPE.ET_TRIG => Except.ok (s.T_GetFE ma ELEMENT_TYPE.ET_TRIG ei.Nr)
    | ELEMENT_TYPE.ET_QUAD => Except.ok (s.T_GetFE ma ELEMENT_TYPE.ET_QUAD ei.Nr)
    | _ =>
      Except.error (Exception.Exception
        ("FacetSurfaceFESpace::GetFE: unsupported element " ++
          GetElementName (ma.GetElType ei)))
  | VorB.BBND =>
    match ma.GetElType ei with
    | ELEMENT_TYPE.ET_SEGM =>
      Except.ok (FiniteElement.L2HighOrderFE ELEMENT_TYPE.ET_SEGM vnums s.order)
    | _ =>
      Except.error (Exception.Exception
        ("FacetSurfaceFESpace::GetFE: unsupported element " ++
          GetElementName (ma.GetElType ei)))
  | VorB.BBBND => Except.ok (FiniteElement.DummyFE ELEMENT_TYPE.ET_POINT)

/-! ## Differential operators

The operators write into an output the caller passes by reference.  An operator is modelled
as a function to a pair: the exception thrown (`none` on normal return) and the content of
the output when the call is left.  The entries are scalars of a type `R`; a matrix with
the single row `mat.Row(0)` is modelled by that row. -/

/-- An integration point: its coordinates, of a type `P` this file never inspects, and its
facet number `ip.FacetNr()`, negative when no local facet is known. -/
structure IntegrationPoint (P : Type) where
  point : P
  FacetNr : Int

/-- A mapped integration point: the point `mip.IP()` and its codimension context
`mip.VB()`. -/
structure MappedIntegrationPoint (P : Type) where
  IP : IntegrationPoint P
  VB : VorB

/-- A batch of mapped points (`SIMD_BaseMappedIntegrationRule`): the points `mir.IR()`. -/
structure SIMD_BaseMappedIntegrationRule (P : Type) where
  IR : List (IntegrationPoint P)

/-- The call `mir.Size()`: the number of points of the batch. -/
def SIMD_BaseMappedIntegrationRule.Size {P : Type} (mir : SIMD_BaseMappedIntegrationRule P) :
    Nat :=
  mir.IR.length

/-- The read `mir.IR()[0].FacetNr()`; a batch without a first point has no known facet. -/
def SIMD_BaseMappedIntegrationRule.FirstFacetNr {P : Type}
    (mir : SIMD_BaseMappedIntegrationRule P) : Int :=
  match mir.IR with
  | [] => -1
  | ip :: _ => ip.FacetNr

/-- Modelled from the spec: the finite element of one facet, as `Facet(f)` returns it (the
class is declared outside this file).  `CalcShape ip` lists the values of the facet's shape
functions at `ip`, which the call `CalcShape (ip, shape)` stores in `shape[0], shape[1], ...`;
`GetNDof` is the number of these shape functions. -/
structure FacetElement (P R : Type) where
  GetNDof : Nat
  CalcShape : IntegrationPoint P → List R

/-- Modelled from the spec: the element the operators receive, seen through the two classes
they cast it to (both declared outside this file): as `FacetVolumeFiniteElement` it has the
facets `Facet(f)` and their DOF sub-ranges `GetFacetDofs(f)`, as `BaseScalarFiniteElement` it
has its own shape functions `CalcShape`; `GetNDof` is its number of DOFs. -/
structure FacetVolumeFiniteElement (P R : Type) where
  GetNDof : Nat
  Facet : Int → FacetElement P R
  GetFacetDofs : Int → IntRange
  CalcShape : IntegrationPoint P → List R

/-- The writes `a[start] = vals[0], a[start+1] = vals[1], ...`: what a callee does that is
handed the slice of `a` starting at `start` and stores `vals` in it. -/
def WriteAt {α : Type} (a : List α) (start : Int) : List α → List α
  | [] => a
  | v :: vs => WriteAt (SetAt a start v) (start + 1) vs

/-- The update `a[i] = f (a[i])` at an integer index; an index outside the array changes
nothing. -/
def ModifyAt {α : Type} (a : List α) (i : Int) (f : α → α) : List α :=
  match i with
  | Int.ofNat n => a.modify f n
  | Int.negSucc _ => a

/-- The row writes `mat.Row(start) = rows[0], mat.Row(start+1) = rows[1], ...`, each row
written from its column 0 on. -/
def WriteRowsAt {α : Type} (mat : List (List α)) (start : Int) : List (List α) → List (List α)
  | [] => mat
  | v :: vs => WriteRowsAt (ModifyAt mat start (fun row => WriteAt row 0 v)) (start + 1) vs

/-- The assignment `mat.AddSize (h, w) = 0.0`: the first `w` entries of the first `h` rows
become zero. -/
def ZeroBlock {R : Type} [Zero R] : Nat → Nat → List (List R) → List (List R)
  | 0, _, mat => mat
  | _ + 1, _, [] => []
  | h + 1, w, row :: rows => WriteAt row 0 (List.replicate w 0) :: ZeroBlock h w rows

/-- The view `x.Range (r)` read as a value: the entries `x[first], ..., x[next-1]`. -/
def Range {α : Type} (x : List α) (r : IntRange) : List α :=
  (x.drop r.first.toNat).take r.Size.toNat

/-- The dot product of two vectors. -/
def dot {R : Type} [CommSemiring R] (a b : List R) : R :=
  (List.zipWith (fun u v => u * v) a b).sum

/-- Modelled from the spec: the batched `CalcShape (ir, shapes)` of a facet element, which
fills row `j` of `shapes` with the values of shape function `j` at the points of the batch,
the same values the pointwise `CalcShape` gives. -/
def FacetElement.CalcShapeIR {P R : Type} [Zero R] (fe : FacetElement P R)
    (ir : List (IntegrationPoint P)) : List (List R) :=
  (List.range fe.GetNDof).map (fun j => ir.map (fun ip => (fe.CalcShape ip).getD j 0))

/-- Modelled from the spec: `Evaluate (ir, coefs, values)` of a facet element: one field
value per point of the batch, the dot product of the shape values at the point with the
coefficients. -/
def FacetElement.Evaluate {P R : Type} [CommSemiring R] (fe : FacetElement P R)
    (ir : List (IntegrationPoint P)) (coefs : List R) : List R :=
  ir.map (fun ip => dot (fe.CalcShape ip) coefs)

/-- The accumulation `coefs[j] += shape[j] * value` over the shape functions of one point. -/
def addScaled {R : Type} [CommSemiring R] (value : R) : List R → List R → List R
  | [], _ => []
  | c :: cs, [] => c :: cs
  | c :: cs, sh :: shs => (c + sh * value) :: addScaled value cs shs

/-- Modelled from the spec: `AddTrans (ir, values, coefs)` of a facet element: accumulates
into the coefficients, point after point, the shape values times the value given for the
point. -/
def FacetElement.AddTrans {P R : Type} [CommSemiring R] (fe : FacetElement P R)
    (ir : List (IntegrationPoint P)) (values coefs : List R) : List R :=
  (ir.zip values).foldl (fun acc pv => addScaled pv.2 acc (fe.CalcShape pv.1)) coefs

/-- The operator `DiffOpIdFacet<D>::GenerateMatrix (bfel, mip, mat, lh)` (lines 23-46). -/
def DiffOpIdFacet.GenerateMatrix {P R : Type} [Zero R] (bfel : FacetVolumeFiniteElement P R)
    (mip : MappedIntegrationPoint P) (mat : List R) : Option Exception × List R :=
  let facetnr := mip.IP.FacetNr
  if facetnr ≥ 0 then
    let mat := AssignAll mat 0
    (none, WriteAt mat (bfel.GetFacetDofs facetnr).first
      ((bfel.Facet facetnr).CalcShape mip.IP))
  else if mip.VB = VorB.BND then
    (none, WriteAt mat 0 (bfel.CalcShape mip.IP))
  else
    (some (Exception.Exception "cannot evaluate facet-fe inside element"), mat)

/-- The operator `DiffOpIdFacetSurface<D>::GenerateMatrix (bfel, mip, mat, lh)` (lines
60-76). -/
def DiffOpIdFacetSurface.GenerateMatrix {P R : Type} [Zero R]
    (bfel : FacetVolumeFiniteElement P R) (mip : MappedIntegrationPoint P) (mat : List R) :
    Option Exception × List R :=
  let facetnr := mip.IP.FacetNr
  if facetnr ≥ 0 then
    let mat := AssignAll mat 0
    (none, WriteAt mat (bfel.GetFacetDofs facetnr).first
      ((bfel.Facet facetnr).CalcShape mip.IP))
  else
    (some (Exception.Exception "cannot evaluate facet-fe inside element"), mat)

/-- The operator `DiffOpIdFacetSurface<D>::GenerateMatrixSIMDIR (fel, mir, mat)` (lines
79-95); `mat` is the list of its rows. -/
def DiffOpIdFacetSurface.GenerateMatrixSIMDIR {P R : Type} [Zero R]
    (fel : FacetVolumeFiniteElement P R) (mir : SIMD_BaseMappedIntegrationRule P)
    (mat : List (List R)) : Option Exception × List (List R) :=
  let facetnr := mir.FirstFacetNr
  if facetnr ≥ 0 then
    let mat := ZeroBlock fel.GetNDof mir.Size mat
    (none, WriteRowsAt mat (fel.GetFacetDofs facetnr).first
      ((fel.Facet facetnr).CalcShapeIR mir.IR))
  else
    (some (Exception.ExceptionNOSIMD "facet-simd-bnd not ready"), mat)

/-- The operator `DiffOpIdFacetSurface<D>::ApplySIMDIR (bfel, mir, x, y)` (lines 99-111):
`x` holds the coefficients, `y` is the row `y.Row(0)` that receives one value per point. -/
def DiffOpIdFacetSurface.ApplySIMDIR {P R : Type} [CommSemiring R]
    (bfel : FacetVolumeFiniteElement P R) (mir : SIMD_BaseMappedIntegrationRule P)
    (x y : List R) : Option Exception × List R :=
  let facetnr := mir.FirstFacetNr
  if facetnr < 0 then
    (some (Exception.Exception "cannot evaluate facet-fe inside element, apply simd"), y)
  else
    (none, WriteAt y 0
      ((bfel.Facet facetnr).Evaluate mir.IR (Range x (bfel.GetFacetDofs facetnr))))

/-- The operator `DiffOpIdFacetSurface<D>::AddTransSIMDIR (bfel, mir, y, x)` (lines
114-126): `y` is the row `y.Row(0)` with one value per point, `x` holds the coefficients
that are accumulated into. -/
def DiffOpIdFacetSurface.AddTransSIMDIR {P R : Type} [CommSemiring R]
    (bfel : FacetVolumeFiniteElement P R) (mir : SIMD_BaseMappedIntegrationRule P)
    (y x : List R) : Option Exception × List R :=
  let facetnr := mir.FirstFacetNr
  if facetnr < 0 then
    (some (Exception.Exception "cannot evaluate facet-fe inside element, add trans simd"), x)
  else
    (none, WriteAt x (bfel.GetFacetDofs facetnr).first
      ((bfel.Facet facetnr).AddTrans mir.IR y (Range x (bfel.GetFacetDofs facetnr))))

/-- Whether an exception object is of the class `ExceptionNOSIMD`. -/
def Exception.IsNOSIMD : ngcomp.Exception → Bool
  | ngcomp.Exception.Exception _ => false
  | ngcomp.Exception.ExceptionNOSIMD _ => true
  | ngcomp.Exception.AllocationFailure => false

/-! ## Concrete meshes, flags and states used as test inputs -/

/-- Flags that define nothing but the numeric flag `order`. -/
def flagsOrder (o : Int) : Flags :=
  { numflags := fun name => if name = "order" then some o else none,
    defineflags := fun _ => false }

/-- A 3-D mesh with `nedges` edges, `nlevels` levels and no surface element. -/
def meshEdges (nedges nlevels : Nat) : MeshAccess :=
  { GetDimension := 3, GetNSE := 0, GetNEdges := nedges, GetNLevels := nlevels,
    GetElEdges := fun _ => [], GetElType := fun _ => ELEMENT_TYPE.ET_POINT }

/-- A 3-D mesh of one quadrilateral surface element with the four edges `0, 1, 2, 3`. -/
def meshQuad : MeshAccess :=
  { GetDimension := 3, GetNSE := 1, GetNEdges := 4, GetNLevels := 1,
    GetElEdges := fun ei =>
      if ei.VB = VorB.BND then [0, 1, 2, 3] else if ei.VB = VorB.BBND then [ei.Nr] else [],
    GetElType := fun ei =>
      if ei.VB = VorB.BND then ELEMENT_TYPE.ET_QUAD
      else if ei.VB = VorB.BBND then ELEMENT_TYPE.ET_SEGM else ELEMENT_TYPE.ET_POINT }

/-- The defined-on predicate that holds for every element. -/
def definedEverywhere : ElementId → Bool :=
  fun _ => true

/-- The space as the constructor leaves it for the flags `order = o` on a 3-D mesh. -/
def spaceOrder (o : Int) : FacetSurfaceFESpace :=
  { order := o, rel_order := o - 1, var_order := false, nowirebasket := false, nel := 0,
    nfa := 0, ndof := 0, first_edge_dof := [], ndlevel := [], ctofdof := [] }

/-- The order-2 space after `Update` on `meshQuad` with every element active. -/
def spaceQuadUpdated : FacetSurfaceFESpace :=
  { order := 2, rel_order := 1, var_order := false, nowirebasket := false, nel := 1,
    nfa := 4, ndof := 12, first_edge_dof := [0, 3, 6, 9, 12], ndlevel := [12],
    ctofdof := List.replicate 12 COUPLING_TYPE.WIREBASKET_DOF }

/-- A 3-D mesh of two triangles sharing edge `2`: element `0` has the edges `0, 1, 2`,
element `1` the edges `2, 3, 4`. -/
def meshTwoTrigs : MeshAccess :=
  { GetDimension := 3, GetNSE := 2, GetNEdges := 5, GetNLevels := 1,
    GetElEdges := fun ei =>
      if ei.VB = VorB.BND then (if ei.Nr = 0 then [0, 1, 2] else [2, 3, 4]) else [],
    GetElType := fun _ => ELEMENT_TYPE.ET_TRIG }

/-- The defined-on predicate that holds for element number `0` only. -/
def definedOnFirst : ElementId → Bool :=
  fun ei => decide (ei.Nr = 0)

/-- The order-1 space after `Update` on `meshTwoTrigs` with only element `0` active. -/
def spaceTrigsUpdated : FacetSurfaceFESpace :=
  { order := 1, rel_order := 0, var_order := false, nowirebasket := false, nel := 2,
    nfa := 5, ndof := 10, first_edge_dof := [0, 2, 4, 6, 8, 10], ndlevel := [10],
    ctofdof := List.replicate 6 COUPLING_TYPE.WIREBASKET_DOF ++
      List.replicate 4 COUPLING_TYPE.UNUSED_DOF }

/-- Flags that define the numeric flag `order` and the define flag `nowirebasket`. -/
def flagsOrderNoWirebasket (o : Int) : Flags :=
  { numflags := fun name => if name = "order" then some o else none,
    defineflags := fun name => decide (name = "nowirebasket") }

/-- The space as the constructor leaves it for `order = o` together with `nowirebasket`. -/
def spaceOrderNoWirebasket (o : Int) : FacetSurfaceFESpace :=
  { spaceOrder o with nowirebasket := true }

/-- The order-0 space after `Update` on a 3-D mesh with one edge and one level. -/
def spaceOneEdgeUpdated : FacetSurfaceFESpace :=
  { order := 0, rel_order := -1, var_order := false, nowirebasket := false, nel := 0,
    nfa := 1, ndof := 1, first_edge_dof := [0, 1], ndlevel := [1],
    ctofdof := [COUPLING_TYPE.UNUSED_DOF] }

/-- The state `spaceOneEdgeUpdated` after a further `Update` on a mesh with four edges and
three levels. -/
def spaceFourEdgesUpdated : FacetSurfaceFESpace :=
  { order := 0, rel_order := -1, var_order := false, nowirebasket := false, nel := 0,
    nfa := 4, ndof := 4, first_edge_dof := [0, 1, 2, 3, 4], ndlevel := [1, 4, 4],
    ctofdof := List.replicate 4 COUPLING_TYPE.UNUSED_DOF }

/-- A mesh of embedding dimension `dim` with one edge, one level and no surface element. -/
def meshOfDimension (dim : Int) : MeshAccess :=
  { GetDimension := dim, GetNSE := 0, GetNEdges := 1, GetNLevels := 1,
    GetElEdges := fun _ => [], GetElType := fun _ => ELEMENT_TYPE.ET_POINT }

/-- The order-0 space after `Update` on a mesh with five edges and one level followed by
`Update` on a mesh with two edges and two levels. -/
def spaceShrunkUpdated : FacetSurfaceFESpace :=
  { order := 0, rel_order := -1, var_order := false, nowirebasket := false, nel := 0,
    nfa := 2, ndof := 2, first_edge_dof := [0, 1, 2], ndlevel := [5, 2],
    ctofdof := List.replicate 2 COUPLING_TYPE.UNUSED_DOF }

/-- Two `Update` calls: first a mesh with one edge and one level, then a mesh with four
edges and three levels. -/
def callsGrowing : List (MeshAccess × (ElementId → Bool)) :=
  [(meshEdges 1 1, definedEverywhere), (meshEdges 4 3, definedEverywhere)]

/-- Two `Update` calls: first a mesh with five edges and one level, then a mesh with two
edges and two levels. -/
def callsShrinking : List (MeshAccess × (ElementId → Bool)) :=
  [(meshEdges 5 1, definedEverywhere), (meshEdges 2 2, definedEverywhere)]

/-- The effective polynomial order as the flag table of the spec words it: with both `order`
and `relorder` given it is `relorder + 1` under `variableorder` and `order` otherwise; with
only `relorder` it is `relorder + 1`; with only `order` it is `order`; with neither it is `0`. -/
def effectiveOrder (flags : Flags) : Int :=
  match flags.numflags "order", flags.numflags "relorder" with
  | some o, some r => if flags.defineflags "variableorder" then r + 1 else o
  | none, some r => r + 1
  | some o, none => o
  | none, none => 0

/-- Flags with the given numeric flags `order` and `relorder` (absent when `none`) and the
define flag `variableorder` set or not. -/
def flagsOf (order relorder : Option Int) (variableorder : Bool) : Flags :=
  { numflags := fun name =>
      if name = "order" then order else if name = "relorder" then relorder else none,
    defineflags := fun name => decide (name = "variableorder") && variableorder }

/-- Names of the reference shapes, used where a test input needs `GetElementName`. -/
def elementName : ELEMENT_TYPE → String
  | ELEMENT_TYPE.ET_POINT => "Point"
  | ELEMENT_TYPE.ET_SEGM => "Segm"
  | ELEMENT_TYPE.ET_TRIG => "Trig"
  | ELEMENT_TYPE.ET_QUAD => "Quad"
  | ELEMENT_TYPE.ET_TET => "Tet"
  | ELEMENT_TYPE.ET_PYRAMID => "Pyramid"
  | ELEMENT_TYPE.ET_PRISM => "Prism"
  | ELEMENT_TYPE.ET_HEX => "Hex"

/-- An element with six DOFs and integer scalars over points numbered by naturals.  It has
three facets of two shape functions each: facet `f` owns the DOFs `2f, 2f+1`, and at the
point `p` its shape functions take the values `p + 1` and `p + f + 2`.  Its own six shape
functions take the values `1, 2, 3, 4, 5, p`. -/
def testElement : FacetVolumeFiniteElement Nat Int :=
  { GetNDof := 6,
    Facet := fun f =>
      { GetNDof := 2, CalcShape := fun ip => [(ip.point : Int) + 1, (ip.point : Int) + f + 2] },
    GetFacetDofs := fun f => { first := 2 * f, next := 2 * f + 2 },
    CalcShape := fun ip => [1, 2, 3, 4, 5, (ip.point : Int)] }

/-- The point `p` with facet number `f` in the codimension context `vb`. -/
def testPoint (p : Nat) (f : Int) (vb : VorB) : MappedIntegrationPoint Nat :=
  { IP := { point := p, FacetNr := f }, VB := vb }

/-- The batch of the points `0, 1, 2`, all with facet number `f`. -/
def testRule (f : Int) : SIMD_BaseMappedIntegrationRule Nat :=
  { IR := [{ point := 0, FacetNr := f }, { point := 1, FacetNr := f },
      { point := 2, FacetNr := f }] }

end ngcomp

namespace netgen

/-! ## ParallelFor (`general/parthreads.hpp`) -/

/-- The bound `first + (next-first)*i/nthreads` of the sub-range of thread `i`, with the
truncating division of C++ `int`. -/
def threadBound (first next : Int) (nthreads : Nat) (i : Nat) : Int :=
  first + ((next - first) * (i : Int)).tdiv (nthreads : Int)

/-- The function `ParallelFor (first, next, f)` (lines 75-93), with the thread count that
`thread::hardware_concurrency()` reports as the parameter `nthreads`.  The result lists,
by thread index, the arguments `(myfirst, mynext)` with which the callback `f` is invoked;
the threads run `f` concurrently and are all joined before the function returns. -/
def ParallelFor (first next : Int) (nthreads : Nat) : List (Int × Int) :=
  (List.range nthreads).map (fun (i : Nat) =>
    let myfirst := threadBound first next nthreads i
    let mynext := threadBound first next nthreads (i + 1)
    (myfirst, mynext))

/-- The indices `myfirst, ..., mynext-1` a callback invocation is handed. -/
def indicesOf (call : Int × Int) : List Int :=
  ngcomp.IntRange.toList { first := call.1, next := call.2 }

end netgen

namespace ngcomp

/-! ## Arrays -/

theorem length_SetSize {α : Type} (a : List α) (n : Nat) (fresh : α) :
    (SetSize a n fresh).length = n := by
  simp [SetSize]
  omega

theorem AssignAll_SetSize {α : Type} (a : List α) (n : Nat) (fresh val : α) :
    AssignAll (SetSize a n fresh) val = List.replicate n val := by
  simp [AssignAll, length_SetSize]

theorem SetSize_zero {α : Type} (a : List α) (fresh : α) : SetSize a 0 fresh = [] := by
  simp [SetSize]

theorem mem_IntRange_toList (r : IntRange) (d : Int) : d ∈ r.toList ↔ r.Contains d := by
  simp only [IntRange.toList, IntRange.Size, IntRange.Contains, List.mem_map, List.mem_range]
  constructor
  · rintro ⟨j, hj, rfl⟩
    omega
  · rintro ⟨h1, h2⟩
    exact ⟨(d - r.first).toNat, by omega, by omega⟩

theorem length_IntRange_toList (r : IntRange) : r.toList.length = r.Size.toNat := by
  simp [IntRange.toList]

theorem nodup_IntRange_toList (r : IntRange) : r.toList.Nodup := by
  unfold IntRange.toList
  refine List.Nodup.map ?_ (List.nodup_range _)
  intro a b h
  simpa using h

/-! ## The edge loop -/

theorem edgeLoop_succ (p : Int) (n : Nat) (st : List Int × Int) :
    edgeLoop p (n + 1) st =
      ((edgeLoop p n st).1.set n (edgeLoop p n st).2, (edgeLoop p n st).2 + (p + 1)) := by
  simp [edgeLoop, List.range_succ, List.foldl_append]

theorem edgeLoop_snd (p : Int) (n : Nat) (st : List Int × Int) :
    (edgeLoop p n st).2 = st.2 + (n : Int) * (p + 1) := by
  induction n with
  | zero => simp [edgeLoop]
  | succ n ih =>
    rw [edgeLoop_succ]
    simp only [ih]
    push_cast
    ring

theorem edgeLoop_length (p : Int) (n : Nat) (st : List Int × Int) :
    (edgeLoop p n st).1.length = st.1.length := by
  induction n with
  | zero => simp [edgeLoop]
  | succ n ih =>
    rw [edgeLoop_succ]
    simp [ih]

theorem edgeLoop_getElem? (p : Int) (n : Nat) (st : List Int × Int) (i : Nat) :
    (edgeLoop p n st).1[i]? =
      if i < n ∧ i < st.1.length then some (st.2 + (i : Int) * (p + 1)) else st.1[i]? := by
  induction n with
  | zero => simp [edgeLoop]
  | succ n ih =>
    rw [edgeLoop_succ]
    simp only [List.getElem?_set, edgeLoop_length, edgeLoop_snd, ih]
    by_cases h1 : n = i
    · subst h1
      by_cases h2 : n < st.1.length
      · simp [h2]
      · simp [h2]
        omega
    · by_cases h2 : i < n
      · have : i < n + 1 := by omega
        simp [h1, h2, this]
      · have : ¬ i < n + 1 := by omega
        simp [h1, h2, this]

theorem edgeLoop_table (p : Int) (nfa : Nat) (c : Int) :
    (edgeLoop p nfa (List.replicate (nfa + 1) c, 0)).1.set nfa
        (edgeLoop p nfa (List.replicate (nfa + 1) c, 0)).2 = dofTable p nfa := by
  apply List.ext_getElem?
  intro i
  simp only [List.getElem?_set, edgeLoop_length, edgeLoop_snd, edgeLoop_getElem?, dofTable,
    List.length_replicate, List.getElem?_map, List.getElem?_range, List.getElem?_replicate]
  by_cases h1 : nfa = i
  · subst h1
    simp
  · by_cases h2 : i < nfa
    · have : i < nfa + 1 := by omega
      simp [h1, h2, this, List.getElem?_range]
    · have : ¬ i < nfa + 1 := by omega
      have h3 : (List.range (nfa + 1))[i]? = none :=
        List.getElem?_eq_none (by simp; omega)
      simp [h1, h2, this, h3]

/-! ## The level loop -/

theorem appendLevels_eq (nlevels : Nat) (ndof : Int) (fuel : Nat) (ndlevel : List Int)
    (h : nlevels - ndlevel.length ≤ fuel) :
    appendLevels nlevels ndof fuel ndlevel =
      ndlevel ++ List.replicate (nlevels - ndlevel.length) ndof := by
  induction fuel generalizing ndlevel with
  | zero =>
    have h0 : nlevels - ndlevel.length = 0 := by omega
    simp [appendLevels, h0]
  | succ fuel ih =>
    unfold appendLevels
    by_cases hlt : nlevels > ndlevel.length
    · rw [if_pos hlt, ih _ (by simp; omega)]
      have hk : nlevels - ndlevel.length = (nlevels - (ndlevel ++ [ndof]).length) + 1 := by
        simp
        omega
      rw [hk, List.replicate_succ]
      simp
    · have h0 : nlevels - ndlevel.length = 0 := by omega
      rw [if_neg hlt, h0]
      simp

/-! ## What `Update` computes -/

/-- The state `Update` hands to `UpdateCouplingDofArray`. -/
theorem Update_eq (s : FacetSurfaceFESpace) (ma : MeshAccess) (DefinedOn : ElementId → Bool) :
    s.Update ma DefinedOn =
      if ma.GetDimension = 3 then
        FacetSurfaceFESpace.UpdateCouplingDofArray
          { s with nel := ma.GetNSE, nfa := ma.GetNEdges,
                   ndof := (ma.GetNEdges : Int) * (s.order + 1),
                   first_edge_dof := dofTable s.order ma.GetNEdges,
                   ndlevel := levelTable s.ndlevel ma.GetNLevels
                     ((ma.GetNEdges : Int) * (s.order + 1)) } ma DefinedOn
      else Except.error (Exception.Exception "Only implemented for 3d!") := by
  unfold FacetSurfaceFESpace.Update
  by_cases hd : ma.GetDimension = 3
  · have ht := edgeLoop_table s.order ma.GetNEdges (ma.GetNEdges : Int)
    rw [edgeLoop_snd] at ht
    simp only [zero_add] at ht
    simp only [hd, if_true, AssignAll_SetSize, edgeLoop_snd, zero_add, levelTable]
    rw [appendLevels_eq _ _ _ _ (by omega), ht]
  · simp only [hd, if_false]

/-- A successful `UpdateCouplingDofArray` had a non-negative `ndof` and changed `ctofdof`
only. -/
theorem UpdateCouplingDofArray_ok (s s1 : FacetSurfaceFESpace) (ma : MeshAccess)
    (DefinedOn : ElementId → Bool)
    (h : s.UpdateCouplingDofArray ma DefinedOn = Except.ok s1) :
    0 ≤ s.ndof ∧ s1 = { s with ctofdof := s1.ctofdof } := by
  unfold FacetSurfaceFESpace.UpdateCouplingDofArray at h
  by_cases hneg : s.ndof < 0
  · rw [if_pos hneg] at h
    cases h
  · rw [if_neg hneg] at h
    injection h with h
    subst h
    exact ⟨by omega, rfl⟩

theorem Update_ok (s s1 : FacetSurfaceFESpace) (ma : MeshAccess)
    (DefinedOn : ElementId → Bool) (h : s.Update ma DefinedOn = Except.ok s1) :
    ma.GetDimension = 3 ∧ s1.order = s.order ∧ s1.nfa = ma.GetNEdges ∧
      s1.ndof = (ma.GetNEdges : Int) * (s.order + 1) ∧
      s1.first_edge_dof = dofTable s.order ma.GetNEdges ∧
      s1.ndlevel = levelTable s.ndlevel ma.GetNLevels ((ma.GetNEdges : Int) * (s.order + 1)) := by
  rw [Update_eq] at h
  by_cases hd : ma.GetDimension = 3
  · rw [if_pos hd] at h
    have hs1 := (UpdateCouplingDofArray_ok _ s1 ma DefinedOn h).2
    rw [hs1]
    exact ⟨hd, rfl, rfl, rfl, rfl, rfl⟩
  · rw [if_neg hd] at h
    cases h

/-- A successful `Update` computed a non-negative total. -/
theorem Update_total_nonneg (s s1 : FacetSurfaceFESpace) (ma : MeshAccess)
    (DefinedOn : ElementId → Bool) (h : s.Update ma DefinedOn = Except.ok s1) :
    0 ≤ (ma.GetNEdges : Int) * (s.order + 1) := by
  rw [Update_eq] at h
  by_cases hd : ma.GetDimension = 3
  · rw [if_pos hd] at h
    exact (UpdateCouplingDofArray_ok _ s1 ma DefinedOn h).1
  · rw [if_neg hd] at h
    cases h

theorem dofTable_length (p : Int) (nfa : Nat) : (dofTable p nfa).length = nfa + 1 := by
  simp [dofTable]

theorem dofTable_getD (p : Int) (nfa i : Nat) (h : i ≤ nfa) :
    (dofTable p nfa).getD i 0 = (i : Int) * (p + 1) := by
  have hi : i < nfa + 1 := by omega
  simp [dofTable, List.getD_eq_getElem?_getD, List.getElem?_map, List.getElem?_range, hi]

/-! ## Evaluation on the test inputs -/

theorem ctor_flagsOrder (o : Int) (nedges nlevels : Nat) :
    FacetSurfaceFESpace.FacetSurfaceFESpace (meshEdges nedges nlevels) (flagsOrder o) =
      Except.ok (spaceOrder o) := by
  simp [FacetSurfaceFESpace.FacetSurfaceFESpace, meshEdges, flagsOrder, spaceOrder,
    Flags.GetDefineFlag, Flags.GetNumFlag, Flags.NumFlagDefined, SetSize]

theorem ctor_meshQuad :
    FacetSurfaceFESpace.FacetSurfaceFESpace meshQuad (flagsOrder 2) =
      Except.ok (spaceOrder 2) := by
  simp [FacetSurfaceFESpace.FacetSurfaceFESpace, meshQuad, flagsOrder, spaceOrder,
    Flags.GetDefineFlag, Flags.GetNumFlag, Flags.NumFlagDefined, SetSize]

theorem Update_meshQuad :
    (spaceOrder 2).Update meshQuad definedEverywhere = Except.ok spaceQuadUpdated := by
  rfl

/-! ## C1: the DOF block table -/

theorem dofTable_pairwise (p : Int) (nfa : Nat) (hp : 0 ≤ p + 1) :
    List.Pairwise (fun a b => a ≤ b) (dofTable p nfa) := by
  unfold dofTable
  rw [List.pairwise_map]
  refine List.Pairwise.imp ?_ (List.pairwise_lt_range (nfa + 1))
  intro a b hab
  have h : (a : Int) ≤ (b : Int) := by exact_mod_cast hab.le
  exact mul_le_mul_of_nonneg_right h hp

/-- C1: after a successful `Update` on a mesh with `nfa` edges and order `p` (any `nfa`, any
integer `p`), `first_edge_dof` has length `nfa+1`, is non-decreasing, its entry `nfa` equals
`GetNDof()`, every edge block `first_edge_dof[e+1] - first_edge_dof[e]` is exactly `p+1`,
and `GetNDof() = nfa*(p+1)`. -/
theorem Update_first_edge_dof (s s1 : FacetSurfaceFESpace) (ma : MeshAccess)
    (DefinedOn : ElementId → Bool) (h : s.Update ma DefinedOn = Except.ok s1) :
    s1.first_edge_dof.length = ma.GetNEdges + 1 ∧
      s1.first_edge_dof.getD ma.GetNEdges 0 = s1.GetNDof ∧
      (∀ e, e < ma.GetNEdges →
        s1.first_edge_dof.getD (e + 1) 0 - s1.first_edge_dof.getD e 0 = s.order + 1) ∧
      s1.GetNDof = (ma.GetNEdges : Int) * (s.order + 1) ∧
      List.Pairwise (fun a b => a ≤ b) s1.first_edge_dof := by
  obtain ⟨_, _, _, hnd, hfed, _⟩ := Update_ok s s1 ma DefinedOn h
  have htot := Update_total_nonneg s s1 ma DefinedOn h
  refine ⟨?_, ?_, ?_, ?_, ?_⟩
  · rw [hfed, dofTable_length]
  · rw [hfed, dofTable_getD _ _ _ (le_refl _), FacetSurfaceFESpace.GetNDof, hnd]
  · intro e he
    rw [hfed, dofTable_getD _ _ _ (by omega), dofTable_getD _ _ _ (by omega)]
    push_cast
    ring
  · rw [FacetSurfaceFESpace.GetNDof, hnd]
  · rw [hfed]
    rcases Nat.eq_zero_or_pos ma.GetNEdges with h0 | hpos
    · rw [h0]
      simp [dofTable, List.range_succ]
    · apply dofTable_pairwise
      have hn : (0 : Int) < (ma.GetNEdges : Int) := by exact_mod_cast hpos
      exact nonneg_of_mul_nonneg_right htot hn

/-- C1 (witness): the order-2 space on the one-quadrilateral mesh: the table is
`[0, 3, 6, 9, 12]`. -/
theorem Update_first_edge_dof_witness :
    (spaceOrder 2).Update meshQuad definedEverywhere = Except.ok spaceQuadUpdated ∧
      (spaceQuadUpdated.first_edge_dof.length = meshQuad.GetNEdges + 1 ∧
        spaceQuadUpdated.first_edge_dof.getD meshQuad.GetNEdges 0 = spaceQuadUpdated.GetNDof ∧
        (∀ e, e < meshQuad.GetNEdges →
          spaceQuadUpdated.first_edge_dof.getD (e + 1) 0 -
            spaceQuadUpdated.first_edge_dof.getD e 0 = (spaceOrder 2).order + 1) ∧
        spaceQuadUpdated.GetNDof = (meshQuad.GetNEdges : Int) * ((spaceOrder 2).order + 1) ∧
        List.Pairwise (fun a b => a ≤ b) spaceQuadUpdated.first_edge_dof) :=
  ⟨Update_meshQuad,
    Update_first_edge_dof (spaceOrder 2) spaceQuadUpdated meshQuad definedEverywhere
      Update_meshQuad⟩

/-- The flag `order = -2` is accepted by the constructor, but `Update` on a 3-D mesh with
two edges then computes the total `-2` and does not return: sizing the coupling array
fails. -/
theorem Update_fails_on_negative_total :
    FacetSurfaceFESpace.FacetSurfaceFESpace (meshEdges 2 1) (flagsOrder (-2)) =
        Except.ok (spaceOrder (-2)) ∧
      (spaceOrder (-2)).Update (meshEdges 2 1) definedEverywhere =
        Except.error Exception.AllocationFailure :=
  ⟨ctor_flagsOrder (-2) 2 1, rfl⟩

/-! ## C2: the edge blocks tile the DOF numbers -/

theorem GetEdgeDofs_of_table (s1 : FacetSurfaceFESpace) (p : Int) (nfa e : Nat)
    (hfed : s1.first_edge_dof = dofTable p nfa) (he : e < nfa) :
    s1.GetEdgeDofs e = { first := (e : Int) * (p + 1), next := ((e : Int) + 1) * (p + 1) } := by
  unfold FacetSurfaceFESpace.GetEdgeDofs
  rw [hfed, dofTable_getD _ _ _ (by omega), dofTable_getD _ _ _ (by omega)]
  push_cast
  rfl

theorem blocks_disjoint (q : Int) (e e2 : Nat) (hne : e ≠ e2) :
    List.Disjoint
      (IntRange.toList { first := (e : Int) * q, next := ((e : Int) + 1) * q })
      (IntRange.toList { first := (e2 : Int) * q, next := ((e2 : Int) + 1) * q }) := by
  intro d h1 h2
  rw [mem_IntRange_toList] at h1 h2
  obtain ⟨a1, a2⟩ := h1
  obtain ⟨b1, b2⟩ := h2
  simp only at a1 a2 b1 b2
  have hq : 0 < q := by nlinarith
  rcases Nat.lt_or_gt_of_ne hne with hlt | hlt
  · have h3 : ((e : Int) + 1) ≤ (e2 : Int) := by exact_mod_cast hlt
    have h4 : ((e : Int) + 1) * q ≤ (e2 : Int) * q := mul_le_mul_of_nonneg_right h3 hq.le
    omega
  · have h3 : ((e2 : Int) + 1) ≤ (e : Int) := by exact_mod_cast hlt
    have h4 : ((e2 : Int) + 1) * q ≤ (e : Int) * q := mul_le_mul_of_nonneg_right h3 hq.le
    omega

theorem block_toList (m e : Nat) :
    IntRange.toList { first := (e : Int) * (m : Int), next := ((e : Int) + 1) * (m : Int) } =
      (List.range m).map (fun (j : Nat) => ((e * m + j : Nat) : Int)) := by
  have hs : (((e : Int) + 1) * (m : Int) - (e : Int) * (m : Int)).toNat = m := by
    have : ((e : Int) + 1) * (m : Int) - (e : Int) * (m : Int) = (m : Int) := by ring
    rw [this]
    simp
  simp only [IntRange.toList, IntRange.Size, hs]
  apply List.map_congr_left
  intro j _
  push_cast
  ring

theorem blocks_concat (m n : Nat) :
    (List.range n).flatMap (fun (e : Nat) =>
        IntRange.toList { first := (e : Int) * (m : Int), next := ((e : Int) + 1) * (m : Int) }) =
      (List.range (n * m)).map (fun (j : Nat) => (j : Int)) := by
  induction n with
  | zero => simp
  | succ n ih =>
    rw [List.range_succ, List.flatMap_append, ih, Nat.succ_mul, List.range_add, List.map_append]
    simp [block_toList]

theorem blocks_concat_of_nonpos (q : Int) (hq : q ≤ 0) (n : Nat) :
    (List.range n).flatMap (fun (e : Nat) =>
        IntRange.toList { first := (e : Int) * q, next := ((e : Int) + 1) * q }) = [] := by
  rw [List.flatMap_eq_nil_iff]
  intro e _
  have hs : (((e : Int) + 1) * q - (e : Int) * q).toNat = 0 := by
    have : ((e : Int) + 1) * q - (e : Int) * q = q := by ring
    rw [this]
    omega
  simp [IntRange.toList, IntRange.Size, hs]

/-- C2: after `Update`, the DOF ranges of two different edges are disjoint, and the ranges
`GetEdgeDofs(0), ..., GetEdgeDofs(nfa-1)` concatenated in edge order are exactly the sequence
`0, 1, ..., GetNDof()-1`. -/
theorem Update_edge_dofs_tile (s s1 : FacetSurfaceFESpace) (ma : MeshAccess)
    (DefinedOn : ElementId → Bool) (h : s.Update ma DefinedOn = Except.ok s1) :
    (∀ e e2, e < ma.GetNEdges → e2 < ma.GetNEdges → e ≠ e2 →
        List.Disjoint (s1.GetEdgeDofs e).toList (s1.GetEdgeDofs e2).toList) ∧
      (List.range ma.GetNEdges).flatMap (fun e => (s1.GetEdgeDofs e).toList) =
        IntRange.toList { first := 0, next := s1.GetNDof } := by
  obtain ⟨_, _, _, hnd, hfed, _⟩ := Update_ok s s1 ma DefinedOn h
  constructor
  · intro e e2 he he2 hne
    rw [GetEdgeDofs_of_table s1 _ _ e hfed he, GetEdgeDofs_of_table s1 _ _ e2 hfed he2]
    exact blocks_disjoint _ e e2 hne
  · have hcongr : (List.range ma.GetNEdges).flatMap (fun e => (s1.GetEdgeDofs e).toList) =
        (List.range ma.GetNEdges).flatMap (fun (e : Nat) => IntRange.toList
          { first := (e : Int) * (s.order + 1), next := ((e : Int) + 1) * (s.order + 1) }) := by
      apply List.flatMap_congr
      intro e he
      rw [GetEdgeDofs_of_table s1 _ _ e hfed (List.mem_range.mp he)]
    rw [hcongr, FacetSurfaceFESpace.GetNDof, hnd]
    by_cases hq : s.order + 1 ≤ 0
    · rw [blocks_concat_of_nonpos _ hq]
      have h0 : ((ma.GetNEdges : Int) * (s.order + 1)).toNat = 0 := by
        have : (ma.GetNEdges : Int) * (s.order + 1) ≤ 0 :=
          mul_nonpos_of_nonneg_of_nonpos (by positivity) hq
        omega
      simp [IntRange.toList, IntRange.Size, h0]
    · obtain ⟨m, hm⟩ := Int.eq_ofNat_of_zero_le (by omega : 0 ≤ s.order + 1)
      rw [hm, blocks_concat]
      have hs : ((ma.GetNEdges : Int) * (m : Int)).toNat = ma.GetNEdges * m := by
        have : (ma.GetNEdges : Int) * (m : Int) = ((ma.GetNEdges * m : Nat) : Int) := by
          push_cast
          rfl
        rw [this, Int.toNat_ofNat]
      simp [IntRange.toList, IntRange.Size, hs]

/-- C2 (witness): on the one-quadrilateral mesh with order 2 the four blocks concatenate to
`0, ..., 11`. -/
theorem Update_edge_dofs_tile_witness :
    (spaceOrder 2).Update meshQuad definedEverywhere = Except.ok spaceQuadUpdated ∧
      ((∀ e e2, e < meshQuad.GetNEdges → e2 < meshQuad.GetNEdges → e ≠ e2 →
          List.Disjoint (spaceQuadUpdated.GetEdgeDofs e).toList
            (spaceQuadUpdated.GetEdgeDofs e2).toList) ∧
        (List.range meshQuad.GetNEdges).flatMap
            (fun e => (spaceQuadUpdated.GetEdgeDofs e).toList) =
          IntRange.toList { first := 0, next := spaceQuadUpdated.GetNDof }) :=
  ⟨Update_meshQuad,
    Update_edge_dofs_tile (spaceOrder 2) spaceQuadUpdated meshQuad definedEverywhere
      Update_meshQuad⟩

/-! ## C3: DOF numbers of a surface element -/

theorem foldl_append_eq_flatMap {α β : Type} (f : α → List β) (l : List α) (init : List β) :
    l.foldl (fun dn ed => dn ++ f ed) init = init ++ l.flatMap f := by
  induction l generalizing init with
  | nil => simp
  | cons a l ih => simp [ih]

theorem length_flatMap_const {α β : Type} (f : α → List β) (c : Nat) (l : List α)
    (h : ∀ a ∈ l, (f a).length = c) : (l.flatMap f).length = l.length * c := by
  induction l with
  | nil => simp
  | cons a l ih =>
    have h1 : (f a).length = c := h a (List.mem_cons_self a l)
    have h2 := ih (fun b hb => h b (List.mem_cons_of_mem a hb))
    simp only [List.flatMap_cons, List.length_append, List.length_cons, h1, h2]
    ring

theorem GetDofNrs_BND_eq (s1 : FacetSurfaceFESpace) (ma : MeshAccess)
    (DefinedOn : ElementId → Bool) (ei : ElementId) (dnums : List Int)
    (hdim : ma.GetDimension = 3) (hdef : DefinedOn ei = true) (hvb : ei.VB = VorB.BND) :
    s1.GetDofNrs ma DefinedOn ei dnums =
      (ma.GetElEdges ei).flatMap (fun e => (s1.GetEdgeDofs e).toList) := by
  simp [FacetSurfaceFESpace.GetDofNrs, hdef, hvb, hdim, SetSize_zero, foldl_append_eq_flatMap]

/-- C3: after `Update`, for an active `BND` element whose edges `e_1..e_k` are pairwise
distinct edges of the mesh, `GetDofNrs` returns `GetEdgeDofs(e_1) ++ ... ++ GetEdgeDofs(e_k)`
in the element's edge order, with `k*(order+1)` entries (an edge block of negative size counts
as empty) and without duplicates. -/
theorem GetDofNrs_BND (s s1 : FacetSurfaceFESpace) (ma : MeshAccess)
    (DefinedOn : ElementId → Bool) (ei : ElementId) (dnums : List Int)
    (h : s.Update ma DefinedOn = Except.ok s1) (hdef : DefinedOn ei = true)
    (hvb : ei.VB = VorB.BND) (hnodup : (ma.GetElEdges ei).Nodup)
    (hrange : ∀ e ∈ ma.GetElEdges ei, e < ma.GetNEdges) :
    s1.GetDofNrs ma DefinedOn ei dnums =
        (ma.GetElEdges ei).flatMap (fun e => (s1.GetEdgeDofs e).toList) ∧
      (s1.GetDofNrs ma DefinedOn ei dnums).length =
        (ma.GetElEdges ei).length * (s1.order + 1).toNat ∧
      (s1.GetDofNrs ma DefinedOn ei dnums).Nodup := by
  obtain ⟨hdim, hord, _, _, hfed, _⟩ := Update_ok s s1 ma DefinedOn h
  have heq := GetDofNrs_BND_eq s1 ma DefinedOn ei dnums hdim hdef hvb
  refine ⟨heq, ?_, ?_⟩
  · rw [heq]
    apply length_flatMap_const
    intro e he
    rw [GetEdgeDofs_of_table s1 _ _ e hfed (hrange e he), length_IntRange_toList, hord]
    simp only [IntRange.Size]
    congr 1
    ring
  · rw [heq, List.nodup_flatMap]
    refine ⟨fun e _ => nodup_IntRange_toList _, ?_⟩
    refine List.Pairwise.imp_of_mem ?_ hnodup
    intro a b ha hb hab
    show List.Disjoint (s1.GetEdgeDofs a).toList (s1.GetEdgeDofs b).toList
    rw [GetEdgeDofs_of_table s1 _ _ a hfed (hrange a ha),
      GetEdgeDofs_of_table s1 _ _ b hfed (hrange b hb)]
    exact blocks_disjoint _ a b hab

/-- C3 (witness): order 2, one quadrilateral with the edges `0, 1, 2, 3`, every element
active: `GetNDof() = 12` and `GetDofNrs` returns `0, ..., 11` in edge order. -/
theorem GetDofNrs_BND_witness :
    FacetSurfaceFESpace.FacetSurfaceFESpace meshQuad (flagsOrder 2) =
        Except.ok (spaceOrder 2) ∧
      (spaceOrder 2).Update meshQuad definedEverywhere = Except.ok spaceQuadUpdated ∧
      spaceQuadUpdated.GetNDof = 12 ∧
      spaceQuadUpdated.GetDofNrs meshQuad definedEverywhere (ElementId.mk VorB.BND 0) [] =
        [0, 1, 2, 3, 4, 5, 6, 7, 8, 9, 10, 11] ∧
      (spaceQuadUpdated.GetDofNrs meshQuad definedEverywhere (ElementId.mk VorB.BND 0) [] =
          (meshQuad.GetElEdges (ElementId.mk VorB.BND 0)).flatMap
            (fun e => (spaceQuadUpdated.GetEdgeDofs e).toList) ∧
        (spaceQuadUpdated.GetDofNrs meshQuad definedEverywhere
            (ElementId.mk VorB.BND 0) []).length =
          (meshQuad.GetElEdges (ElementId.mk VorB.BND 0)).length *
            (spaceQuadUpdated.order + 1).toNat ∧
        (spaceQuadUpdated.GetDofNrs meshQuad definedEverywhere
          (ElementId.mk VorB.BND 0) []).Nodup) :=
  ⟨ctor_meshQuad, Update_meshQuad, rfl, rfl,
    GetDofNrs_BND (spaceOrder 2) spaceQuadUpdated meshQuad definedEverywhere
      (ElementId.mk VorB.BND 0) [] Update_meshQuad rfl rfl (by decide) (by decide)⟩

/-! ## C4: coupling classification -/

theorem Marks_congr {α : Type} (val : α) (P Q : Nat → Prop) (a b : List α)
    (hPQ : ∀ k, P k ↔ Q k) (h : Marks val P a b) : Marks val Q a b := by
  refine ⟨h.1, fun k => ⟨fun hq hk => (h.2 k).1 ((hPQ k).2 hq) hk, fun hq => (h.2 k).2 ?_⟩⟩
  exact fun hp => hq ((hPQ k).1 hp)

theorem Marks_refl {α : Type} (val : α) (P : Nat → Prop) (a : List α) (hP : ∀ k, ¬ P k) :
    Marks val P a a :=
  ⟨rfl, fun k => ⟨fun hp _ => absurd hp (hP k), fun _ => rfl⟩⟩

theorem Marks_foldl {α β : Type} (val : α) (P : β → Nat → Prop)
    (step : List α → β → List α) (hstep : ∀ a b, Marks val (P b) a (step a b))
    (l : List β) (a : List α) :
    Marks val (fun k => ∃ b ∈ l, P b k) a (l.foldl step a) := by
  induction l generalizing a with
  | nil => exact Marks_refl val _ a (by simp)
  | cons b l ih =>
    have h1 := hstep a b
    have h2 := ih (step a b)
    rw [List.foldl_cons]
    refine ⟨h2.1.trans h1.1, fun k => ⟨?_, ?_⟩⟩
    · intro hex hk
      by_cases hl : ∃ b2 ∈ l, P b2 k
      · exact (h2.2 k).1 hl (by rw [h1.1]; exact hk)
      · rw [(h2.2 k).2 hl]
        obtain ⟨b2, hb2, hp⟩ := hex
        rcases List.mem_cons.mp hb2 with rfl | hmem
        · exact (h1.2 k).1 hp hk
        · exact absurd ⟨b2, hmem, hp⟩ hl
    · intro hex
      have hl : ¬ ∃ b2 ∈ l, P b2 k := fun ⟨b2, hb2, hp⟩ =>
        hex ⟨b2, List.mem_cons_of_mem _ hb2, hp⟩
      have hb : ¬ P b k := fun hp => hex ⟨b, List.mem_cons_self _ _, hp⟩
      rw [(h2.2 k).2 hl, (h1.2 k).2 hb]

theorem Marks_SetAt {α : Type} (val : α) (a : List α) (i : Int) :
    Marks val (fun k => (k : Int) = i) a (SetAt a i val) := by
  cases i with
  | ofNat n =>
    refine ⟨by simp [SetAt], fun k => ⟨?_, ?_⟩⟩
    · intro hk hlt
      have hkn : n = k := by
        have : (k : Int) = (n : Int) := hk
        omega
      subst hkn
      simp [SetAt, List.getElem?_set, hlt]
    · intro hk
      have hkn : ¬ n = k := by
        intro hnk
        apply hk
        rw [hnk]
        rfl
      simp [SetAt, List.getElem?_set, hkn]
  | negSucc n =>
    refine Marks_refl val _ a ?_
    intro k hk
    have := Int.negSucc_lt_zero n
    omega

theorem Marks_AssignRange {α : Type} (val : α) (a : List α) (r : IntRange) :
    Marks val (fun k => r.Contains (k : Int)) a (AssignRange a r val) := by
  unfold AssignRange
  refine Marks_congr val _ _ a _ ?_
    (Marks_foldl val (fun (j : Nat) (k : Nat) => (k : Int) = r.first + (j : Int))
      (fun acc (j : Nat) => SetAt acc (r.first + (j : Int)) val)
      (fun acc j => Marks_SetAt val acc _) (List.range r.Size.toNat) a)
  intro k
  simp only [List.mem_range, IntRange.Size, IntRange.Contains]
  constructor
  · rintro ⟨j, hj, hk⟩
    omega
  · rintro ⟨h1, h2⟩
    exact ⟨((k : Int) - r.first).toNat, by omega, by omega⟩

theorem Marks_UpdateCouplingDofArray (s s1 : FacetSurfaceFESpace) (ma : MeshAccess)
    (DefinedOn : ElementId → Bool)
    (h : s.UpdateCouplingDofArray ma DefinedOn = Except.ok s1) :
    Marks COUPLING_TYPE.WIREBASKET_DOF (OnActiveSurface s ma DefinedOn)
      (List.replicate s.ndof.toNat COUPLING_TYPE.UNUSED_DOF) s1.ctofdof := by
  unfold FacetSurfaceFESpace.UpdateCouplingDofArray at h
  by_cases hneg : s.ndof < 0
  · rw [if_pos hneg] at h
    cases h
  rw [if_neg hneg] at h
  injection h with h
  subst h
  simp only [AssignAll_SetSize]
  refine Marks_congr _ _ _ _ _ ?_
    (Marks_foldl COUPLING_TYPE.WIREBASKET_DOF
      (fun (i : Nat) (k : Nat) => DefinedOn (ElementId.mk VorB.BND i) = true ∧
        ∃ ed ∈ ma.GetElEdges (ElementId.mk VorB.BND i), (s.GetEdgeDofs ed).Contains (k : Int))
      _ ?_ (List.range ma.GetNSE) _)
  · intro k
    rfl
  · intro a i
    by_cases hD : DefinedOn (ElementId.mk VorB.BND i) = true
    · simp only [hD, if_true, true_and]
      exact Marks_foldl COUPLING_TYPE.WIREBASKET_DOF
        (fun (ed : Nat) (k : Nat) => (s.GetEdgeDofs ed).Contains (k : Int))
        _ (fun acc ed => Marks_AssignRange _ acc _) _ a
    · simp only [hD, if_false]
      exact Marks_refl _ _ a (fun k hk => Bool.false_ne_true hk.1)

theorem Update_marks (s s1 : FacetSurfaceFESpace) (ma : MeshAccess)
    (DefinedOn : ElementId → Bool) (h : s.Update ma DefinedOn = Except.ok s1) :
    Marks COUPLING_TYPE.WIREBASKET_DOF (OnActiveSurface s1 ma DefinedOn)
      (List.replicate s1.ndof.toNat COUPLING_TYPE.UNUSED_DOF) s1.ctofdof := by
  rw [Update_eq] at h
  by_cases hd : ma.GetDimension = 3
  · rw [if_pos hd] at h
    have hm := Marks_UpdateCouplingDofArray _ s1 ma DefinedOn h
    have hs1 := (UpdateCouplingDofArray_ok _ s1 ma DefinedOn h).2
    rw [hs1]
    exact hm
  · rw [if_neg hd] at h
    cases h

theorem dofTable_getD_out (p : Int) (nfa i : Nat) (h : nfa < i) :
    (dofTable p nfa).getD i 0 = 0 := by
  have hnone : (dofTable p nfa)[i]? = none :=
    List.getElem?_eq_none (by rw [dofTable_length]; omega)
  simp [List.getD_eq_getElem?_getD, hnone]

theorem owner_in_range (s1 : FacetSurfaceFESpace) (p : Int) (nfa ed d : Nat)
    (hfed : s1.first_edge_dof = dofTable p nfa)
    (hc : (s1.GetEdgeDofs ed).Contains (d : Int)) : ed < nfa := by
  by_contra hge
  have hnext : s1.first_edge_dof.getD (ed + 1) 0 = 0 := by
    rw [hfed]
    exact dofTable_getD_out p nfa (ed + 1) (by omega)
  have h2 := hc.2
  simp only [FacetSurfaceFESpace.GetEdgeDofs, hnext] at h2
  omega

theorem owner_unique (s1 : FacetSurfaceFESpace) (p : Int) (nfa e ed d : Nat)
    (hfed : s1.first_edge_dof = dofTable p nfa) (he : e < nfa)
    (hce : (s1.GetEdgeDofs e).Contains (d : Int))
    (hced : (s1.GetEdgeDofs ed).Contains (d : Int)) : ed = e := by
  have hed := owner_in_range s1 p nfa ed d hfed hced
  by_contra hne
  rw [GetEdgeDofs_of_table s1 _ _ e hfed he] at hce
  rw [GetEdgeDofs_of_table s1 _ _ ed hfed hed] at hced
  exact blocks_disjoint (p + 1) ed e hne ((mem_IntRange_toList _ _).2 hced)
    ((mem_IntRange_toList _ _).2 hce)

/-- C4: after `Update` the coupling array has one entry per DOF, each entry is `Wirebasket`
or `Unused`, and the DOF `d` owned by edge `e` is `Wirebasket` exactly when `e` is an edge of
some surface element `i < GetNSE` for which the defined-on predicate holds.  This holds
whatever the `nowirebasket` option, in particular when it is unset. -/
theorem Update_coupling_classes (s s1 : FacetSurfaceFESpace) (ma : MeshAccess)
    (DefinedOn : ElementId → Bool) (h : s.Update ma DefinedOn = Except.ok s1) :
    s1.ctofdof.length = s1.GetNDof.toNat ∧
      (∀ d : Nat, (d : Int) < s1.GetNDof →
        s1.ctofdof[d]? = some COUPLING_TYPE.WIREBASKET_DOF ∨
          s1.ctofdof[d]? = some COUPLING_TYPE.UNUSED_DOF) ∧
      (∀ d e : Nat, (d : Int) < s1.GetNDof → e < ma.GetNEdges →
        (s1.GetEdgeDofs e).Contains (d : Int) →
        (s1.ctofdof[d]? = some COUPLING_TYPE.WIREBASKET_DOF ↔
          ∃ i, i < ma.GetNSE ∧ DefinedOn (ElementId.mk VorB.BND i) = true ∧
            e ∈ ma.GetElEdges (ElementId.mk VorB.BND i))) := by
  obtain ⟨_, _, _, _, hfed, _⟩ := Update_ok s s1 ma DefinedOn h
  have hm := Update_marks s s1 ma DefinedOn h
  have hlen : s1.ctofdof.length = s1.ndof.toNat := by
    rw [hm.1, List.length_replicate]
  have hcases : ∀ d : Nat, (d : Int) < s1.ndof →
      (OnActiveSurface s1 ma DefinedOn d →
        s1.ctofdof[d]? = some COUPLING_TYPE.WIREBASKET_DOF) ∧
      (¬ OnActiveSurface s1 ma DefinedOn d →
        s1.ctofdof[d]? = some COUPLING_TYPE.UNUSED_DOF) := by
    intro d hd
    have hdn : d < s1.ndof.toNat := by omega
    refine ⟨fun hp => (hm.2 d).1 hp (by rw [List.length_replicate]; exact hdn), fun hp => ?_⟩
    rw [(hm.2 d).2 hp, List.getElem?_replicate, if_pos hdn]
  refine ⟨hlen, ?_, ?_⟩
  · intro d hd
    by_cases hp : OnActiveSurface s1 ma DefinedOn d
    · exact Or.inl ((hcases d hd).1 hp)
    · exact Or.inr ((hcases d hd).2 hp)
  · intro d e hd he hce
    constructor
    · intro hw
      by_cases hp : OnActiveSurface s1 ma DefinedOn d
      · obtain ⟨i, hi, hD, ed, hmem, hced⟩ := hp
        have heq := owner_unique s1 _ _ e ed d hfed he hce hced
        subst heq
        exact ⟨i, List.mem_range.mp hi, hD, hmem⟩
      · rw [(hcases d hd).2 hp] at hw
        cases hw
    · rintro ⟨i, hi, hD, hmem⟩
      exact (hcases d hd).1 ⟨i, List.mem_range.mpr hi, hD, e, hmem, hce⟩

theorem Update_meshTwoTrigs :
    (spaceOrder 1).Update meshTwoTrigs definedOnFirst = Except.ok spaceTrigsUpdated := by
  rfl

/-- C4 (witness): two triangles sharing an edge, only the first active, order 1: the DOFs
`0..5` of the edges `0, 1, 2` are `Wirebasket`, the DOFs `6..9` of the edges `3, 4` are
`Unused`. -/
theorem Update_coupling_classes_witness :
    (spaceOrder 1).Update meshTwoTrigs definedOnFirst = Except.ok spaceTrigsUpdated ∧
      spaceTrigsUpdated.ctofdof =
        List.replicate 6 COUPLING_TYPE.WIREBASKET_DOF ++
          List.replicate 4 COUPLING_TYPE.UNUSED_DOF ∧
      (spaceTrigsUpdated.ctofdof.length = spaceTrigsUpdated.GetNDof.toNat ∧
        (∀ d : Nat, (d : Int) < spaceTrigsUpdated.GetNDof →
          spaceTrigsUpdated.ctofdof[d]? = some COUPLING_TYPE.WIREBASKET_DOF ∨
            spaceTrigsUpdated.ctofdof[d]? = some COUPLING_TYPE.UNUSED_DOF) ∧
        (∀ d e : Nat, (d : Int) < spaceTrigsUpdated.GetNDof → e < meshTwoTrigs.GetNEdges →
          (spaceTrigsUpdated.GetEdgeDofs e).Contains (d : Int) →
          (spaceTrigsUpdated.ctofdof[d]? = some COUPLING_TYPE.WIREBASKET_DOF ↔
            ∃ i, i < meshTwoTrigs.GetNSE ∧ definedOnFirst (ElementId.mk VorB.BND i) = true ∧
              e ∈ meshTwoTrigs.GetElEdges (ElementId.mk VorB.BND i)))) :=
  ⟨Update_meshTwoTrigs, rfl,
    Update_coupling_classes (spaceOrder 1) spaceTrigsUpdated meshTwoTrigs definedOnFirst
      Update_meshTwoTrigs⟩

/-! ## C5: the `nowirebasket` option -/

/-- C5 (code at the failing input): with the flags `order = 0` and `nowirebasket` the
constructor stores `nowirebasket = true`, yet `Update` on the one-quadrilateral mesh with
every element active classifies all four DOFs as `Wirebasket`, none as `Local`. -/
theorem nowirebasket_still_wirebasket :
    FacetSurfaceFESpace.FacetSurfaceFESpace meshQuad (flagsOrderNoWirebasket 0) =
        Except.ok (spaceOrderNoWirebasket 0) ∧
      (spaceOrderNoWirebasket 0).nowirebasket = true ∧
      (spaceOrderNoWirebasket 0).Update meshQuad definedEverywhere =
        Except.ok
          { order := 0, rel_order := -1, var_order := false, nowirebasket := true, nel := 1,
            nfa := 4, ndof := 4, first_edge_dof := [0, 1, 2, 3, 4], ndlevel := [4],
            ctofdof := [COUPLING_TYPE.WIREBASKET_DOF, COUPLING_TYPE.WIREBASKET_DOF,
              COUPLING_TYPE.WIREBASKET_DOF, COUPLING_TYPE.WIREBASKET_DOF] } := by
  refine ⟨?_, rfl, rfl⟩
  simp [FacetSurfaceFESpace.FacetSurfaceFESpace, meshQuad, flagsOrderNoWirebasket,
    spaceOrderNoWirebasket, spaceOrder, Flags.GetDefineFlag, Flags.GetNumFlag,
    Flags.NumFlagDefined, SetSize]

/-! ## The level array -/

theorem length_SetLast {α : Type} (a : List α) (val : α) : (SetLast a val).length = a.length := by
  simp [SetLast]

theorem SetLast_SetLast {α : Type} (a : List α) (val : α) :
    SetLast (SetLast a val) val = SetLast a val := by
  simp [SetLast, List.set_set]

theorem length_levelTable (ndlevel : List Int) (nlevels : Nat) (ndof : Int) :
    (levelTable ndlevel nlevels ndof).length = ndlevel.length + (nlevels - ndlevel.length) := by
  simp [levelTable, length_SetLast]

theorem levelTable_of_le (ndlevel : List Int) (nlevels : Nat) (ndof : Int)
    (h : nlevels - ndlevel.length = 0) :
    levelTable ndlevel nlevels ndof = SetLast ndlevel ndof := by
  unfold levelTable
  rw [h, List.replicate_zero, List.append_nil]

theorem levelTable_levelTable (ndlevel : List Int) (nlevels : Nat) (ndof : Int) :
    levelTable (levelTable ndlevel nlevels ndof) nlevels ndof =
      levelTable ndlevel nlevels ndof := by
  have h0 : nlevels - (levelTable ndlevel nlevels ndof).length = 0 := by
    rw [length_levelTable]
    omega
  rw [levelTable_of_le _ _ _ h0]
  unfold levelTable
  exact SetLast_SetLast _ _

theorem levelTable_getElem?_old (ndlevel : List Int) (nlevels : Nat) (ndof : Int) (i : Nat)
    (hi : i < ndlevel.length)
    (hlast : i + 1 ≠ (levelTable ndlevel nlevels ndof).length) :
    (levelTable ndlevel nlevels ndof)[i]? = ndlevel[i]? := by
  rw [length_levelTable] at hlast
  unfold levelTable SetLast
  rw [List.getElem?_set]
  have hne : ¬ (ndlevel ++ List.replicate (nlevels - ndlevel.length) ndof).length - 1 = i := by
    simp
    omega
  rw [if_neg hne, List.getElem?_append_left hi]

theorem levelTable_getElem?_new (ndlevel : List Int) (nlevels : Nat) (ndof : Int) (i : Nat)
    (hk : ndlevel.length ≤ i) (hi : i < nlevels) :
    (levelTable ndlevel nlevels ndof)[i]? = some ndof := by
  unfold levelTable SetLast
  rw [List.getElem?_set]
  by_cases hlast : (ndlevel ++ List.replicate (nlevels - ndlevel.length) ndof).length - 1 = i
  · rw [if_pos hlast, if_pos (by simp; omega)]
  · rw [if_neg hlast, List.getElem?_append_right hk, List.getElem?_replicate,
      if_pos (by omega)]

theorem levelTable_last (ndlevel : List Int) (nlevels : Nat) (ndof : Int)
    (hne : levelTable ndlevel nlevels ndof ≠ []) :
    (levelTable ndlevel nlevels ndof)[(levelTable ndlevel nlevels ndof).length - 1]? =
      some ndof := by
  have hpos : 0 < (levelTable ndlevel nlevels ndof).length := List.length_pos.mpr hne
  rw [length_levelTable] at hpos
  rw [length_levelTable]
  unfold levelTable SetLast
  rw [List.getElem?_set]
  have hlen : (ndlevel ++ List.replicate (nlevels - ndlevel.length) ndof).length =
      ndlevel.length + (nlevels - ndlevel.length) := by simp
  rw [hlen, if_pos rfl, if_pos (by omega)]

/-! ## C6: idempotence -/

theorem Update_fixed (s s1 : FacetSurfaceFESpace) (ma : MeshAccess)
    (DefinedOn : ElementId → Bool) (h : s.Update ma DefinedOn = Except.ok s1) :
    s1.Update ma DefinedOn = Except.ok s1 := by
  rw [Update_eq] at h
  by_cases hd : ma.GetDimension = 3
  · rw [if_pos hd] at h
    unfold FacetSurfaceFESpace.UpdateCouplingDofArray at h
    by_cases hneg : (ma.GetNEdges : Int) * (s.order + 1) < 0
    · rw [if_pos hneg] at h
      cases h
    · rw [if_neg hneg] at h
      injection h with h
      subst h
      rw [Update_eq, if_pos hd]
      unfold FacetSurfaceFESpace.UpdateCouplingDofArray
      simp only [if_neg hneg, AssignAll_SetSize, levelTable_levelTable,
        FacetSurfaceFESpace.GetEdgeDofs]
  · rw [if_neg hd] at h
    cases h

/-- C6: if `Update` succeeds, a second `Update` with the same mesh, the same defined-on
predicate and the same configuration succeeds as well and leaves `first_edge_dof`, the
coupling classification and `GetNDof()` (indeed the whole state) as the first call left
them. -/
theorem Update_idempotent (s s1 : FacetSurfaceFESpace) (ma : MeshAccess)
    (DefinedOn : ElementId → Bool) (h : s.Update ma DefinedOn = Except.ok s1) :
    ∃ s2, s1.Update ma DefinedOn = Except.ok s2 ∧
      s2.first_edge_dof = s1.first_edge_dof ∧ s2.ctofdof = s1.ctofdof ∧
      s2.GetNDof = s1.GetNDof ∧ s2 = s1 :=
  ⟨s1, Update_fixed s s1 ma DefinedOn h, rfl, rfl, rfl, rfl⟩

/-- C6 (witness): the order-1 space on the two-triangle mesh, first element active. -/
theorem Update_idempotent_witness :
    (spaceOrder 1).Update meshTwoTrigs definedOnFirst = Except.ok spaceTrigsUpdated ∧
      ∃ s2, spaceTrigsUpdated.Update meshTwoTrigs definedOnFirst = Except.ok s2 ∧
        s2.first_edge_dof = spaceTrigsUpdated.first_edge_dof ∧
        s2.ctofdof = spaceTrigsUpdated.ctofdof ∧
        s2.GetNDof = spaceTrigsUpdated.GetNDof ∧ s2 = spaceTrigsUpdated :=
  ⟨Update_meshTwoTrigs,
    Update_idempotent (spaceOrder 1) spaceTrigsUpdated meshTwoTrigs definedOnFirst
      Update_meshTwoTrigs⟩

/-! ## C8 and C9: the multilevel update rule -/

theorem Update_oneEdge :
    (spaceOrder 0).Update (meshEdges 1 1) definedEverywhere = Except.ok spaceOneEdgeUpdated := by
  rfl

theorem Update_fourEdges :
    spaceOneEdgeUpdated.Update (meshEdges 4 3) definedEverywhere =
      Except.ok spaceFourEdgesUpdated := by
  rfl

/-- C8 (amended): when `Update` runs with a mesh level count `L` greater than the number `k`
of tracked snapshots, the level array gets length `L`, every snapshot appended for the new
levels (indices `k, ..., L-1`) equals the freshly computed total DOF count, and the `k`
snapshots tracked before keep their values. -/
theorem Update_appends_fresh_total (s s1 : FacetSurfaceFESpace) (ma : MeshAccess)
    (DefinedOn : ElementId → Bool) (h : s.Update ma DefinedOn = Except.ok s1)
    (hL : s.ndlevel.length < ma.GetNLevels) :
    s1.ndlevel.length = ma.GetNLevels ∧
      (∀ i, s.ndlevel.length ≤ i → i < ma.GetNLevels →
        s1.GetNDofLevel i = some s1.GetNDof) ∧
      (∀ i, i < s.ndlevel.length → s1.GetNDofLevel i = s.GetNDofLevel i) := by
  obtain ⟨_, _, _, hnd, _, hlev⟩ := Update_ok s s1 ma DefinedOn h
  have hlen : s1.ndlevel.length = ma.GetNLevels := by
    rw [hlev, length_levelTable]
    omega
  refine ⟨hlen, ?_, ?_⟩
  · intro i hk hi
    rw [FacetSurfaceFESpace.GetNDofLevel, FacetSurfaceFESpace.GetNDof, hnd, hlev]
    exact levelTable_getElem?_new _ _ _ i hk hi
  · intro i hi
    rw [FacetSurfaceFESpace.GetNDofLevel, FacetSurfaceFESpace.GetNDofLevel, hlev]
    apply levelTable_getElem?_old _ _ _ i hi
    rw [← hlev, hlen]
    omega

/-- C8 (witness): one tracked snapshot `[1]`, a mesh with three levels and four edges: the
level array becomes `[1, 4, 4]`. -/
theorem Update_appends_fresh_total_witness :
    spaceOneEdgeUpdated.Update (meshEdges 4 3) definedEverywhere =
        Except.ok spaceFourEdgesUpdated ∧
      spaceOneEdgeUpdated.ndlevel.length < (meshEdges 4 3).GetNLevels ∧
      spaceFourEdgesUpdated.ndlevel = [1, 4, 4] ∧
      (spaceFourEdgesUpdated.ndlevel.length = (meshEdges 4 3).GetNLevels ∧
        (∀ i, spaceOneEdgeUpdated.ndlevel.length ≤ i → i < (meshEdges 4 3).GetNLevels →
          spaceFourEdgesUpdated.GetNDofLevel i = some spaceFourEdgesUpdated.GetNDof) ∧
        (∀ i, i < spaceOneEdgeUpdated.ndlevel.length →
          spaceFourEdgesUpdated.GetNDofLevel i = spaceOneEdgeUpdated.GetNDofLevel i)) :=
  ⟨Update_fourEdges, by decide, rfl,
    Update_appends_fresh_total spaceOneEdgeUpdated spaceFourEdgesUpdated (meshEdges 4 3)
      definedEverywhere Update_fourEdges (by decide)⟩

/-- C8 (counterexample): the space holds one snapshot and the total `1`; `Update` on a mesh
with three levels and four edges appends two snapshots.  The appended snapshot at index `1`
is not the final one, yet it is `4`, the fresh total, and not the prior total `1`. -/
theorem appended_snapshot_is_not_prior_total :
    (spaceOrder 0).Update (meshEdges 1 1) definedEverywhere = Except.ok spaceOneEdgeUpdated ∧
      spaceOneEdgeUpdated.ndlevel.length = 1 ∧ spaceOneEdgeUpdated.GetNDof = 1 ∧
      spaceOneEdgeUpdated.Update (meshEdges 4 3) definedEverywhere =
        Except.ok spaceFourEdgesUpdated ∧
      (meshEdges 4 3).GetNLevels = 3 ∧
      spaceFourEdgesUpdated.GetNDofLevel 1 = some 4 ∧
      spaceFourEdgesUpdated.GetNDofLevel 1 ≠ some spaceOneEdgeUpdated.GetNDof :=
  ⟨Update_oneEdge, rfl, rfl, Update_fourEdges, rfl, rfl, by decide⟩

/-- C9: an `Update` never shortens the level array, and every entry tracked before the
`Update` that is not the last entry afterwards keeps the value it had before. -/
theorem Update_levels_frozen (s s1 : FacetSurfaceFESpace) (ma : MeshAccess)
    (DefinedOn : ElementId → Bool) (h : s.Update ma DefinedOn = Except.ok s1) :
    s.ndlevel.length ≤ s1.ndlevel.length ∧
      ∀ i, i < s.ndlevel.length → i + 1 ≠ s1.ndlevel.length →
        s1.GetNDofLevel i = s.GetNDofLevel i := by
  obtain ⟨_, _, _, _, _, hlev⟩ := Update_ok s s1 ma DefinedOn h
  constructor
  · rw [hlev, length_levelTable]
    omega
  · intro i hi hlast
    rw [FacetSurfaceFESpace.GetNDofLevel, FacetSurfaceFESpace.GetNDofLevel, hlev]
    apply levelTable_getElem?_old _ _ _ i hi
    rw [← hlev]
    exact hlast

/-- C9 (witness): the level array `[1]` grows to `[1, 4, 4]`; the entry of level `0` stays
`1`. -/
theorem Update_levels_frozen_witness :
    spaceOneEdgeUpdated.Update (meshEdges 4 3) definedEverywhere =
        Except.ok spaceFourEdgesUpdated ∧
      spaceFourEdgesUpdated.GetNDofLevel 0 = some 1 ∧
      (spaceOneEdgeUpdated.ndlevel.length ≤ spaceFourEdgesUpdated.ndlevel.length ∧
        ∀ i, i < spaceOneEdgeUpdated.ndlevel.length →
          i + 1 ≠ spaceFourEdgesUpdated.ndlevel.length →
          spaceFourEdgesUpdated.GetNDofLevel i = spaceOneEdgeUpdated.GetNDofLevel i) :=
  ⟨Update_fourEdges, rfl,
    Update_levels_frozen spaceOneEdgeUpdated spaceFourEdgesUpdated (meshEdges 4 3)
      definedEverywhere Update_fourEdges⟩

/-! ## C10: the dimension check of the constructor -/

/-- C10 (code at the failing input): on a mesh of dimension 1 the constructor succeeds; it
throws for dimension 2 only, and it is `Update` that rejects the 1-D mesh. -/
theorem ctor_accepts_dimension_one :
    FacetSurfaceFESpace.FacetSurfaceFESpace (meshOfDimension 1) (flagsOrder 0) =
        Except.ok (spaceOrder 0) ∧
      FacetSurfaceFESpace.FacetSurfaceFESpace (meshOfDimension 2) (flagsOrder 0) =
        Except.error (Exception.Exception "FacetSurfaceFESpace only implemented for 3d!") ∧
      FacetSurfaceFESpace.FacetSurfaceFESpace (meshOfDimension 3) (flagsOrder 0) =
        Except.ok (spaceOrder 0) ∧
      (spaceOrder 0).Update (meshOfDimension 1) definedEverywhere =
        Except.error (Exception.Exception "Only implemented for 3d!") := by
  refine ⟨?_, ?_, ?_, rfl⟩ <;>
  simp [FacetSurfaceFESpace.FacetSurfaceFESpace, meshOfDimension, flagsOrder, spaceOrder,
    Flags.GetDefineFlag, Flags.GetNumFlag, Flags.NumFlagDefined, SetSize]

/-! ## C7: level counts along a sequence of updates -/

theorem SetLast_eq_dropLast {α : Type} (a : List α) (val : α) (hne : a ≠ []) :
    SetLast a val = a.dropLast ++ [val] := by
  apply List.ext_getElem?
  intro i
  unfold SetLast
  have hpos : 0 < a.length := List.length_pos.mpr hne
  rw [List.getElem?_set]
  by_cases h1 : a.length - 1 = i
  · rw [if_pos h1, if_pos (by omega),
      List.getElem?_append_right (by rw [List.length_dropLast]; omega)]
    simp [List.length_dropLast, h1]
  · rw [if_neg h1]
    by_cases h2 : i < a.length - 1
    · rw [List.getElem?_append_left (by rw [List.length_dropLast]; exact h2),
        List.getElem?_dropLast, if_pos h2]
    · rw [List.getElem?_eq_none (by omega), List.getElem?_eq_none (by simp; omega)]

theorem levelTable_sorted (ndlevel : List Int) (nlevels : Nat) (ndof : Int)
    (hs : List.Pairwise (fun a b => a ≤ b) ndlevel) (hb : ∀ x ∈ ndlevel, x ≤ ndof) :
    List.Pairwise (fun a b => a ≤ b) (levelTable ndlevel nlevels ndof) ∧
      ∀ x ∈ levelTable ndlevel nlevels ndof, x ≤ ndof := by
  have hall : ∀ x ∈ ndlevel ++ List.replicate (nlevels - ndlevel.length) ndof, x ≤ ndof := by
    intro x hx
    rcases List.mem_append.mp hx with h1 | h1
    · exact hb x h1
    · rw [(List.mem_replicate.mp h1).2]
  have hpw : List.Pairwise (fun a b => a ≤ b)
      (ndlevel ++ List.replicate (nlevels - ndlevel.length) ndof) := by
    rw [List.pairwise_append]
    refine ⟨hs, ?_, ?_⟩
    · rw [List.pairwise_replicate]
      exact Or.inr (le_refl _)
    · intro x hx y hy
      rw [(List.mem_replicate.mp hy).2]
      exact hb x hx
  unfold levelTable
  by_cases hne : ndlevel ++ List.replicate (nlevels - ndlevel.length) ndof = []
  · rw [hne]
    simp [SetLast]
  · rw [SetLast_eq_dropLast _ _ hne]
    constructor
    · rw [List.pairwise_append]
      refine ⟨hpw.sublist (List.dropLast_sublist _), List.pairwise_singleton _ _, ?_⟩
      intro x hx y hy
      rw [List.mem_singleton.mp hy]
      exact hall x (List.mem_of_mem_dropLast hx)
    · intro x hx
      rcases List.mem_append.mp hx with h1 | h1
      · exact hall x (List.mem_of_mem_dropLast h1)
      · rw [List.mem_singleton.mp h1]

theorem ctor_ndlevel (ma : MeshAccess) (flags : Flags) (s0 : FacetSurfaceFESpace)
    (h : FacetSurfaceFESpace.FacetSurfaceFESpace ma flags = Except.ok s0) :
    s0.ndlevel = [] := by
  unfold FacetSurfaceFESpace.FacetSurfaceFESpace at h
  by_cases hd : ma.GetDimension = 2
  · simp [hd] at h
  · simp only [hd, if_false] at h
    injection h with h
    subst h
    simp [SetSize]

theorem UpdateSeq_cons (s s2 : FacetSurfaceFESpace) (call : MeshAccess × (ElementId → Bool))
    (calls : List (MeshAccess × (ElementId → Bool)))
    (h : UpdateSeq s (call :: calls) = Except.ok s2) :
    ∃ s1, s.Update call.1 call.2 = Except.ok s1 ∧ UpdateSeq s1 calls = Except.ok s2 := by
  unfold UpdateSeq at h
  cases hu : s.Update call.1 call.2 with
  | error e =>
    rw [hu] at h
    cases h
  | ok s1 =>
    rw [hu] at h
    exact ⟨s1, rfl, h⟩

theorem UpdateSeq_last (calls : List (MeshAccess × (ElementId → Bool))) :
    ∀ s s2 : FacetSurfaceFESpace, UpdateSeq s calls = Except.ok s2 →
      (s.ndlevel ≠ [] → s.ndlevel[s.ndlevel.length - 1]? = some s.ndof) →
      s2.ndlevel ≠ [] → s2.ndlevel[s2.ndlevel.length - 1]? = some s2.ndof := by
  induction calls with
  | nil =>
    intro s s2 h hs
    unfold UpdateSeq at h
    injection h with h
    subst h
    exact hs
  | cons call calls ih =>
    intro s s2 h _
    obtain ⟨s1, h1, h2⟩ := UpdateSeq_cons s s2 call calls h
    obtain ⟨_, _, _, hnd, _, hlev⟩ := Update_ok s s1 call.1 call.2 h1
    refine ih s1 s2 h2 ?_
    intro hne
    rw [hnd]
    rw [hlev] at hne ⊢
    exact levelTable_last _ _ _ hne

theorem UpdateSeq_sorted (calls : List (MeshAccess × (ElementId → Bool))) :
    ∀ s s2 : FacetSurfaceFESpace, UpdateSeq s calls = Except.ok s2 →
      List.Pairwise (fun a b => a ≤ b)
        (calls.map (fun call => (call.1.GetNEdges : Int) * (s.order + 1))) →
      List.Pairwise (fun a b => a ≤ b) s.ndlevel →
      (∀ x ∈ s.ndlevel, ∀ call ∈ calls, x ≤ (call.1.GetNEdges : Int) * (s.order + 1)) →
      List.Pairwise (fun a b => a ≤ b) s2.ndlevel := by
  induction calls with
  | nil =>
    intro s s2 h _ hs _
    unfold UpdateSeq at h
    injection h with h
    subst h
    exact hs
  | cons call calls ih =>
    intro s s2 h htot hs hb
    obtain ⟨s1, h1, h2⟩ := UpdateSeq_cons s s2 call calls h
    obtain ⟨_, hord, _, _, _, hlev⟩ := Update_ok s s1 call.1 call.2 h1
    rw [List.map_cons, List.pairwise_cons] at htot
    have hst := levelTable_sorted s.ndlevel call.1.GetNLevels
      ((call.1.GetNEdges : Int) * (s.order + 1)) hs
      (fun x hx => hb x hx call (List.mem_cons_self _ _))
    refine ih s1 s2 h2 ?_ ?_ ?_
    · rw [hord]
      exact htot.2
    · rw [hlev]
      exact hst.1
    · intro x hx call2 hc2
      rw [hlev] at hx
      rw [hord]
      exact le_trans (hst.2 x hx)
        (htot.1 _ (List.mem_map.mpr ⟨call2, hc2, rfl⟩))

/-- C7 (amended): after the constructor and any sequence of successful `Update` calls, the
last tracked level holds `GetNDof()`; and if the total DOF counts `nfa*(order+1)` computed
by the successive calls never decrease (as when `order ≥ -1` and the edge count never
decreases), then `GetNDofLevel(l1) ≤ GetNDofLevel(l2)` for all tracked levels `l1 < l2`. -/
theorem UpdateSeq_level_counts (ma0 : MeshAccess) (flags : Flags)
    (s0 s : FacetSurfaceFESpace) (calls : List (MeshAccess × (ElementId → Bool)))
    (hc : FacetSurfaceFESpace.FacetSurfaceFESpace ma0 flags = Except.ok s0)
    (hs : UpdateSeq s0 calls = Except.ok s) :
    (s.ndlevel ≠ [] → s.GetNDofLevel (s.ndlevel.length - 1) = some s.GetNDof) ∧
      (List.Pairwise (fun a b => a ≤ b)
          (calls.map (fun call => (call.1.GetNEdges : Int) * (s0.order + 1))) →
        ∀ l1 l2 a b, l1 < l2 → s.GetNDofLevel l1 = some a → s.GetNDofLevel l2 = some b →
          a ≤ b) := by
  have h0 := ctor_ndlevel ma0 flags s0 hc
  constructor
  · exact UpdateSeq_last calls s0 s hs (fun hne => absurd h0 hne)
  · intro htot l1 l2 a b hlt ha hb
    have hpw := UpdateSeq_sorted calls s0 s hs htot (by rw [h0]; exact List.Pairwise.nil)
      (by rw [h0]; intro x hx; cases hx)
    unfold FacetSurfaceFESpace.GetNDofLevel at ha hb
    obtain ⟨h1, rfl⟩ := List.getElem?_eq_some.mp ha
    obtain ⟨h2, rfl⟩ := List.getElem?_eq_some.mp hb
    exact List.pairwise_iff_getElem.mp hpw l1 l2 h1 h2 hlt

theorem UpdateSeq_callsGrowing :
    UpdateSeq (spaceOrder 0) callsGrowing = Except.ok spaceFourEdgesUpdated := by
  rfl

theorem UpdateSeq_callsShrinking :
    UpdateSeq (spaceOrder 0) callsShrinking = Except.ok spaceShrunkUpdated := by
  rfl

/-- C7 (witness): order 0, one edge on one level, then four edges on three levels: the
level counts are `[1, 4, 4]`. -/
theorem UpdateSeq_level_counts_witness :
    FacetSurfaceFESpace.FacetSurfaceFESpace (meshEdges 1 1) (flagsOrder 0) =
        Except.ok (spaceOrder 0) ∧
      UpdateSeq (spaceOrder 0) callsGrowing = Except.ok spaceFourEdgesUpdated ∧
      spaceFourEdgesUpdated.ndlevel = [1, 4, 4] ∧
      List.Pairwise (fun a b => a ≤ b)
        (callsGrowing.map (fun call => (call.1.GetNEdges : Int) * ((spaceOrder 0).order + 1))) ∧
      ((spaceFourEdgesUpdated.ndlevel ≠ [] →
          spaceFourEdgesUpdated.GetNDofLevel (spaceFourEdgesUpdated.ndlevel.length - 1) =
            some spaceFourEdgesUpdated.GetNDof) ∧
        (List.Pairwise (fun a b => a ≤ b)
            (callsGrowing.map
              (fun call => (call.1.GetNEdges : Int) * ((spaceOrder 0).order + 1))) →
          ∀ l1 l2 a b, l1 < l2 → spaceFourEdgesUpdated.GetNDofLevel l1 = some a →
            spaceFourEdgesUpdated.GetNDofLevel l2 = some b → a ≤ b)) :=
  ⟨ctor_flagsOrder 0 1 1, UpdateSeq_callsGrowing, rfl, by decide,
    UpdateSeq_level_counts (meshEdges 1 1) (flagsOrder 0) (spaceOrder 0)
      spaceFourEdgesUpdated callsGrowing (ctor_flagsOrder 0 1 1) UpdateSeq_callsGrowing⟩

/-- C7 (counterexample): order 0; `Update` on a mesh with five edges and one level, then on
a mesh with two edges and two levels.  Both calls succeed and the level counts are `[5, 2]`:
`GetNDofLevel(0) = 5 > 2 = GetNDofLevel(1)`. -/
theorem level_counts_decrease_with_edge_count :
    FacetSurfaceFESpace.FacetSurfaceFESpace (meshEdges 5 1) (flagsOrder 0) =
        Except.ok (spaceOrder 0) ∧
      UpdateSeq (spaceOrder 0) callsShrinking = Except.ok spaceShrunkUpdated ∧
      spaceShrunkUpdated.GetNDofLevel 0 = some 5 ∧
      spaceShrunkUpdated.GetNDofLevel 1 = some 2 ∧
      ¬ ((5 : Int) ≤ 2) :=
  ⟨ctor_flagsOrder 0 5 1, UpdateSeq_callsShrinking, rfl, rfl, by decide⟩

/-! ## C11: resolution of the order flags -/

/-- C11: on every mesh the dimension check lets through, the constructor succeeds whatever
the flags, and the order it stores is `relorder + 1` under `variableorder` and `order`
otherwise when both flags are given, `relorder + 1` (with variable-order mode switched on)
when only `relorder` is given, `order` when only `order` is given, and `0` when neither is
given. -/
theorem ctor_effective_order (ma : MeshAccess) (flags : Flags) (hdim : ma.GetDimension ≠ 2) :
    ∃ s, FacetSurfaceFESpace.FacetSurfaceFESpace ma flags = Except.ok s ∧
      s.order = effectiveOrder flags ∧
      (flags.numflags "order" = none → flags.numflags "relorder" ≠ none →
        s.var_order = true) := by
  unfold FacetSurfaceFESpace.FacetSurfaceFESpace
  simp only [if_neg hdim]
  refine ⟨_, rfl, ?_, ?_⟩
  · cases h1 : flags.numflags "order" <;> cases h2 : flags.numflags "relorder" <;>
      cases h3 : flags.defineflags "variableorder" <;>
      simp [effectiveOrder, Flags.GetDefineFlag, Flags.GetNumFlag, Flags.NumFlagDefined,
        h1, h2, h3, add_comm]
  · intro h1 h2
    cases h2r : flags.numflags "relorder" with
    | none => exact absurd h2r h2
    | some r =>
      simp [Flags.GetDefineFlag, Flags.GetNumFlag, Flags.NumFlagDefined, h1, h2r]

/-- C11 (witness): the four flag combinations on a 3-D mesh: `order = 3, relorder = 5` gives
6 under `variableorder` and 3 without; `relorder = 5` alone gives 6; `order = 3` alone gives
3; no flag gives 0. -/
theorem ctor_effective_order_witness :
    (meshEdges 1 1).GetDimension ≠ 2 ∧
      effectiveOrder (flagsOf (some 3) (some 5) true) = 6 ∧
      effectiveOrder (flagsOf (some 3) (some 5) false) = 3 ∧
      effectiveOrder (flagsOf none (some 5) false) = 6 ∧
      effectiveOrder (flagsOf (some 3) none true) = 3 ∧
      effectiveOrder (flagsOf none none true) = 0 ∧
      ∃ s, FacetSurfaceFESpace.FacetSurfaceFESpace (meshEdges 1 1)
          (flagsOf (some 3) (some 5) true) = Except.ok s ∧
        s.order = effectiveOrder (flagsOf (some 3) (some 5) true) ∧
        ((flagsOf (some 3) (some 5) true).numflags "order" = none →
          (flagsOf (some 3) (some 5) true).numflags "relorder" ≠ none →
          s.var_order = true) :=
  ⟨by decide, by decide, by decide, by decide, by decide, by decide,
    ctor_effective_order (meshEdges 1 1) (flagsOf (some 3) (some 5) true) (by decide)⟩

/-! ## C12: finite elements by codimension -/

/-- C12: `GetFE` throws "Volume elements not available" for every `VOL` element; for a `BND`
element it returns a `FacetFE` of the element's own shape and the space's order when the
shape is triangle or quadrilateral and throws "unsupported element" for every other shape;
for a `BBND` segment it returns the 1-D `L2HighOrderFE` with the space's order; for every
`BBBND` element it returns the zero-DOF placeholder `DummyFE`. -/
theorem GetFE_by_codimension (s : FacetSurfaceFESpace) (ma : MeshAccess)
    (GetElementName : ELEMENT_TYPE → String) (ei : ElementId) :
    (ei.VB = VorB.VOL →
        s.GetFE ma GetElementName ei =
          Except.error
            (Exception.Exception "Volume elements not available for FacetSurfaceSpace")) ∧
      (ei.VB = VorB.BND →
        ma.GetElType ei = ELEMENT_TYPE.ET_TRIG ∨ ma.GetElType ei = ELEMENT_TYPE.ET_QUAD →
        s.GetFE ma GetElementName ei =
          Except.ok (FiniteElement.FacetFE (ma.GetElType ei)
            (ma.GetElementVertices 2 VorB.VOL ei.Nr) s.order)) ∧
      (ei.VB = VorB.BND → ma.GetElType ei ≠ ELEMENT_TYPE.ET_TRIG →
        ma.GetElType ei ≠ ELEMENT_TYPE.ET_QUAD →
        s.GetFE ma GetElementName ei =
          Except.error (Exception.Exception
            ("FacetSurfaceFESpace::GetFE: unsupported element " ++
              GetElementName (ma.GetElType ei)))) ∧
      (ei.VB = VorB.BBND → ma.GetElType ei = ELEMENT_TYPE.ET_SEGM →
        s.GetFE ma GetElementName ei =
          Except.ok (FiniteElement.L2HighOrderFE ELEMENT_TYPE.ET_SEGM
            (ma.GetElVertices ei) s.order)) ∧
      (ei.VB = VorB.BBBND →
        s.GetFE ma GetElementName ei =
            Except.ok (FiniteElement.DummyFE ELEMENT_TYPE.ET_POINT) ∧
          (FiniteElement.DummyFE ELEMENT_TYPE.ET_POINT).IsZeroDofPlaceholder = true) := by
  refine ⟨?_, ?_, ?_, ?_, ?_⟩
  · intro hvb
    simp [FacetSurfaceFESpace.GetFE, hvb]
  · intro hvb het
    rcases het with het | het
    · simp [FacetSurfaceFESpace.GetFE, FacetSurfaceFESpace.T_GetFE, ET_trait_DIM, hvb, het]
    · simp [FacetSurfaceFESpace.GetFE, FacetSurfaceFESpace.T_GetFE, ET_trait_DIM, hvb, het]
  · intro hvb h1 h2
    unfold FacetSurfaceFESpace.GetFE
    cases het : ma.GetElType ei <;> simp_all
  · intro hvb het
    simp [FacetSurfaceFESpace.GetFE, hvb, het]
  · intro hvb
    simp [FacetSurfaceFESpace.GetFE, hvb, FiniteElement.IsZeroDofPlaceholder]

/-- C12 (witness): on the one-quadrilateral mesh the `BND` element `0` gets a quadrilateral
`FacetFE` of order 2, the `VOL` element `0` is refused, a `BBND` segment gets an
`L2HighOrderFE` of order 2 and a `BBBND` point the placeholder. -/
theorem GetFE_by_codimension_witness :
    spaceQuadUpdated.GetFE meshQuad elementName (ElementId.mk VorB.BND 0) =
        Except.ok (FiniteElement.FacetFE ELEMENT_TYPE.ET_QUAD [] 2) ∧
      spaceQuadUpdated.GetFE meshQuad elementName (ElementId.mk VorB.VOL 0) =
        Except.error
          (Exception.Exception "Volume elements not available for FacetSurfaceSpace") ∧
      spaceQuadUpdated.GetFE meshQuad elementName (ElementId.mk VorB.BBND 1) =
        Except.ok (FiniteElement.L2HighOrderFE ELEMENT_TYPE.ET_SEGM [] 2) ∧
      spaceQuadUpdated.GetFE meshQuad elementName (ElementId.mk VorB.BBBND 0) =
        Except.ok (FiniteElement.DummyFE ELEMENT_TYPE.ET_POINT) ∧
      spaceQuadUpdated.GetFE meshQuad elementName (ElementId.mk VorB.BND 0) =
        Except.ok (FiniteElement.FacetFE (meshQuad.GetElType (ElementId.mk VorB.BND 0))
          (meshQuad.GetElementVertices 2 VorB.VOL (ElementId.mk VorB.BND 0).Nr)
          spaceQuadUpdated.order) :=
  ⟨rfl, rfl, rfl, rfl,
    (GetFE_by_codimension spaceQuadUpdated meshQuad elementName
      (ElementId.mk VorB.BND 0)).2.1 rfl (Or.inr rfl)⟩

/-! ## C13 and C14: DOF numbers of inactive elements and of the other codimensions -/

/-- C13: for an element on which the space is not defined `GetDofNrs` returns the empty
array for every codimension, whatever the array held on entry. -/
theorem GetDofNrs_inactive (s : FacetSurfaceFESpace) (ma : MeshAccess)
    (DefinedOn : ElementId → Bool) (ei : ElementId) (dnums : List Int)
    (hdef : DefinedOn ei = false) :
    s.GetDofNrs ma DefinedOn ei dnums = [] := by
  simp [FacetSurfaceFESpace.GetDofNrs, hdef, SetSize_zero]

/-- C13 (witness): the second triangle of the two-triangle mesh is inactive; its DOF numbers
are empty although the array held `7, 8` on entry. -/
theorem GetDofNrs_inactive_witness :
    definedOnFirst (ElementId.mk VorB.BND 1) = false ∧
      spaceTrigsUpdated.GetDofNrs meshTwoTrigs definedOnFirst (ElementId.mk VorB.BND 1)
        [7, 8] = [] :=
  ⟨rfl, GetDofNrs_inactive spaceTrigsUpdated meshTwoTrigs definedOnFirst
    (ElementId.mk VorB.BND 1) [7, 8] rfl⟩

/-- C14: after `Update`, for an active element `GetDofNrs` returns the empty array for the
codimensions `VOL` and `BBBND`; for `BBND` it returns `GetEdgeDofs(e0)` of the first edge
`e0` of the element, whatever further edges follow, and for an edge `e0` of the mesh these
are the `order+1` consecutive numbers starting at `e0*(order+1)`. -/
theorem GetDofNrs_other_codimensions (s s1 : FacetSurfaceFESpace) (ma : MeshAccess)
    (DefinedOn : ElementId → Bool) (ei : ElementId) (dnums : List Int)
    (h : s.Update ma DefinedOn = Except.ok s1) (hdef : DefinedOn ei = true) :
    (ei.VB = VorB.VOL → s1.GetDofNrs ma DefinedOn ei dnums = []) ∧
      (ei.VB = VorB.BBBND → s1.GetDofNrs ma DefinedOn ei dnums = []) ∧
      (ei.VB = VorB.BBND → ∀ e0 rest, ma.GetElEdges ei = e0 :: rest →
        s1.GetDofNrs ma DefinedOn ei dnums = (s1.GetEdgeDofs e0).toList ∧
          (e0 < ma.GetNEdges →
            s1.GetDofNrs ma DefinedOn ei dnums =
              (List.range (s1.order + 1).toNat).map
                (fun (j : Nat) => (e0 : Int) * (s1.order + 1) + (j : Int)))) := by
  obtain ⟨_, hord, _, _, hfed, _⟩ := Update_ok s s1 ma DefinedOn h
  refine ⟨?_, ?_, ?_⟩
  · intro hvb
    simp [FacetSurfaceFESpace.GetDofNrs, hdef, hvb, SetSize_zero]
  · intro hvb
    simp [FacetSurfaceFESpace.GetDofNrs, hdef, hvb, SetSize_zero]
  · intro hvb e0 rest hedges
    have heq : s1.GetDofNrs ma DefinedOn ei dnums = (s1.GetEdgeDofs e0).toList := by
      simp [FacetSurfaceFESpace.GetDofNrs, hdef, hvb, SetSize_zero, hedges]
    refine ⟨heq, fun he0 => ?_⟩
    rw [heq, GetEdgeDofs_of_table s1 _ _ e0 hfed he0, hord]
    have hsize : (((e0 : Int) + 1) * (s.order + 1) - (e0 : Int) * (s.order + 1)) =
        s.order + 1 := by ring
    simp only [IntRange.toList, IntRange.Size, hsize]

/-- C14 (witness): order 2 on the one-quadrilateral mesh: the `BBND` segment `1` has the
DOFs `3, 4, 5` of edge `1`; the `VOL` and `BBBND` elements have none. -/
theorem GetDofNrs_other_codimensions_witness :
    (spaceOrder 2).Update meshQuad definedEverywhere = Except.ok spaceQuadUpdated ∧
      spaceQuadUpdated.GetDofNrs meshQuad definedEverywhere (ElementId.mk VorB.BBND 1) [] =
        [3, 4, 5] ∧
      spaceQuadUpdated.GetDofNrs meshQuad definedEverywhere (ElementId.mk VorB.VOL 0) [] =
        [] ∧
      spaceQuadUpdated.GetDofNrs meshQuad definedEverywhere (ElementId.mk VorB.BBBND 0) [] =
        [] ∧
      spaceQuadUpdated.GetDofNrs meshQuad definedEverywhere (ElementId.mk VorB.BBND 1) [] =
        (spaceQuadUpdated.GetEdgeDofs 1).toList :=
  ⟨Update_meshQuad, rfl, rfl, rfl,
    ((GetDofNrs_other_codimensions (spaceOrder 2) spaceQuadUpdated meshQuad
      definedEverywhere (ElementId.mk VorB.BBND 1) [] Update_meshQuad rfl).2.2 rfl 1 []
      rfl).1⟩

/-! ## C19: DOF numbers of active surface elements are the wirebasket DOFs -/

/-- C19: after `Update` (whatever the `nowirebasket` option, in particular when it is
unset), every DOF number that `GetDofNrs` returns for an active `BND` element of the mesh
lies in `[0, GetNDof())` and is classified `Wirebasket`; conversely every `Wirebasket` DOF
is returned by `GetDofNrs` of at least one active `BND` element of the mesh. -/
theorem GetDofNrs_wirebasket (s s1 : FacetSurfaceFESpace) (ma : MeshAccess)
    (DefinedOn : ElementId → Bool) (h : s.Update ma DefinedOn = Except.ok s1) :
    (∀ (ei : ElementId) (dnums : List Int) (d : Int), ei.VB = VorB.BND →
        ei.Nr < ma.GetNSE → DefinedOn ei = true →
        (∀ e ∈ ma.GetElEdges ei, e < ma.GetNEdges) →
        d ∈ s1.GetDofNrs ma DefinedOn ei dnums →
        0 ≤ d ∧ d < s1.GetNDof ∧
          s1.ctofdof[d.toNat]? = some COUPLING_TYPE.WIREBASKET_DOF) ∧
      (∀ k : Nat, s1.ctofdof[k]? = some COUPLING_TYPE.WIREBASKET_DOF →
        ∃ i, i < ma.GetNSE ∧ DefinedOn (ElementId.mk VorB.BND i) = true ∧
          (k : Int) ∈ s1.GetDofNrs ma DefinedOn (ElementId.mk VorB.BND i) []) := by
  obtain ⟨hdim, _, _, hnd, hfed, _⟩ := Update_ok s s1 ma DefinedOn h
  have hm := Update_marks s s1 ma DefinedOn h
  constructor
  · intro ei dnums d hvb hnr hdef hrange hd
    rw [GetDofNrs_BND_eq s1 ma DefinedOn ei dnums hdim hdef hvb, List.mem_flatMap] at hd
    obtain ⟨ed, hmem, hdr⟩ := hd
    have hc := (mem_IntRange_toList _ _).1 hdr
    have hed := hrange ed hmem
    have hc2 := hc
    rw [GetEdgeDofs_of_table s1 _ _ ed hfed hed] at hc2
    obtain ⟨c1, c2⟩ := hc2
    simp only at c1 c2
    have hq : 0 < s.order + 1 := by nlinarith
    have h0 : 0 ≤ d := le_trans (mul_nonneg (by positivity) hq.le) c1
    have hle : ((ed : Int) + 1) * (s.order + 1) ≤ (ma.GetNEdges : Int) * (s.order + 1) :=
      mul_le_mul_of_nonneg_right (by exact_mod_cast hed) hq.le
    have hlt : d < s1.ndof := by
      rw [hnd]
      omega
    refine ⟨h0, hlt, ?_⟩
    have hcast : ((d.toNat : Nat) : Int) = d := Int.toNat_of_nonneg h0
    have hei : ElementId.mk VorB.BND ei.Nr = ei := by
      cases ei
      simp only at hvb
      rw [hvb]
    refine (hm.2 d.toNat).1 ⟨ei.Nr, List.mem_range.mpr hnr, ?_, ed, ?_, ?_⟩ ?_
    · rw [hei]
      exact hdef
    · rw [hei]
      exact hmem
    · rw [hcast]
      exact hc
    · rw [List.length_replicate]
      omega
  · intro k hk
    by_cases hp : OnActiveSurface s1 ma DefinedOn k
    · obtain ⟨i, hi, hD, ed, hmem, hc⟩ := hp
      refine ⟨i, List.mem_range.mp hi, hD, ?_⟩
      rw [GetDofNrs_BND_eq s1 ma DefinedOn _ [] hdim hD rfl, List.mem_flatMap]
      exact ⟨ed, hmem, (mem_IntRange_toList _ _).2 hc⟩
    · rw [(hm.2 k).2 hp, List.getElem?_replicate] at hk
      split at hk <;> cases hk

/-- C19 (witness): two triangles, only the first active, order 1: its DOF numbers
`0, ..., 5` are exactly the `Wirebasket` DOFs. -/
theorem GetDofNrs_wirebasket_witness :
    (spaceOrder 1).Update meshTwoTrigs definedOnFirst = Except.ok spaceTrigsUpdated ∧
      spaceTrigsUpdated.GetDofNrs meshTwoTrigs definedOnFirst (ElementId.mk VorB.BND 0) [] =
        [0, 1, 2, 3, 4, 5] ∧
      ((∀ (ei : ElementId) (dnums : List Int) (d : Int), ei.VB = VorB.BND →
          ei.Nr < meshTwoTrigs.GetNSE → definedOnFirst ei = true →
          (∀ e ∈ meshTwoTrigs.GetElEdges ei, e < meshTwoTrigs.GetNEdges) →
          d ∈ spaceTrigsUpdated.GetDofNrs meshTwoTrigs definedOnFirst ei dnums →
          0 ≤ d ∧ d < spaceTrigsUpdated.GetNDof ∧
            spaceTrigsUpdated.ctofdof[d.toNat]? = some COUPLING_TYPE.WIREBASKET_DOF) ∧
        (∀ k : Nat, spaceTrigsUpdated.ctofdof[k]? = some COUPLING_TYPE.WIREBASKET_DOF →
          ∃ i, i < meshTwoTrigs.GetNSE ∧ definedOnFirst (ElementId.mk VorB.BND i) = true ∧
            (k : Int) ∈ spaceTrigsUpdated.GetDofNrs meshTwoTrigs definedOnFirst
              (ElementId.mk VorB.BND i) [])) :=
  ⟨Update_meshTwoTrigs, rfl,
    GetDofNrs_wirebasket (spaceOrder 1) spaceTrigsUpdated meshTwoTrigs definedOnFirst
      Update_meshTwoTrigs⟩

/-! ## Writing into a slice -/

theorem length_WriteAt {α : Type} (vals : List α) :
    ∀ (a : List α) (start : Int), (WriteAt a start vals).length = a.length := by
  induction vals with
  | nil => intro a start; rfl
  | cons v vs ih =>
    intro a start
    rw [WriteAt, ih, (Marks_SetAt v a start).1]

theorem WriteAt_getElem?_outside {α : Type} (vals : List α) :
    ∀ (a : List α) (start : Int) (k : Nat),
      ¬ (start ≤ (k : Int) ∧ (k : Int) < start + (vals.length : Int)) →
      (WriteAt a start vals)[k]? = a[k]? := by
  induction vals with
  | nil => intro a start k _; rfl
  | cons v vs ih =>
    intro a start k hk
    simp only [List.length_cons, Nat.cast_add, Nat.cast_one] at hk
    rw [WriteAt, ih _ _ _ (by omega)]
    exact ((Marks_SetAt v a start).2 k).2 (by omega)

theorem WriteAt_getElem?_inside {α : Type} (vals : List α) :
    ∀ (a : List α) (start : Int) (j : Nat), 0 ≤ start → j < vals.length →
      start.toNat + j < a.length → (WriteAt a start vals)[start.toNat + j]? = vals[j]? := by
  induction vals with
  | nil => intro a start j _ hj; cases hj
  | cons v vs ih =>
    intro a start j h0 hj hin
    cases j with
    | zero =>
      rw [WriteAt, Nat.add_zero, WriteAt_getElem?_outside _ _ _ _ (by omega)]
      simp only [List.getElem?_cons_zero]
      exact ((Marks_SetAt v a start).2 start.toNat).1 (by omega) (by omega)
    | succ j =>
      have hidx : start.toNat + (j + 1) = (start + 1).toNat + j := by omega
      rw [WriteAt, hidx, ih _ _ j (by omega) (by simpa using hj)
        (by rw [(Marks_SetAt v a start).1]; omega)]
      simp

/-! ## C15: the facet-interior identity with a facet index -/

/-- C15: for a point with facet index `f ≥ 0` whose facet owns a DOF sub-range
`GetFacetDofs(f)` inside the row and has as many shape functions as the sub-range has
entries, `DiffOpIdFacet::GenerateMatrix` returns normally; the row keeps its length, every
entry outside the sub-range is zero and the entries inside it are the shape values of facet
`f` at the point, whatever the row held before. -/
theorem DiffOpIdFacet_GenerateMatrix_facet {P R : Type} [Zero R]
    (bfel : FacetVolumeFiniteElement P R) (mip : MappedIntegrationPoint P) (mat : List R)
    (hf : 0 ≤ mip.IP.FacetNr)
    (hfirst : 0 ≤ (bfel.GetFacetDofs mip.IP.FacetNr).first)
    (hnext : (bfel.GetFacetDofs mip.IP.FacetNr).next ≤ (mat.length : Int))
    (hshape : (((bfel.Facet mip.IP.FacetNr).CalcShape mip.IP).length : Int) =
      (bfel.GetFacetDofs mip.IP.FacetNr).Size) :
    (DiffOpIdFacet.GenerateMatrix bfel mip mat).1 = none ∧
      (DiffOpIdFacet.GenerateMatrix bfel mip mat).2.length = mat.length ∧
      (∀ k : Nat, k < mat.length → ¬ (bfel.GetFacetDofs mip.IP.FacetNr).Contains (k : Int) →
        (DiffOpIdFacet.GenerateMatrix bfel mip mat).2[k]? = some 0) ∧
      (∀ j : Nat, j < ((bfel.Facet mip.IP.FacetNr).CalcShape mip.IP).length →
        (DiffOpIdFacet.GenerateMatrix bfel mip mat).2[
            (bfel.GetFacetDofs mip.IP.FacetNr).first.toNat + j]? =
          ((bfel.Facet mip.IP.FacetNr).CalcShape mip.IP)[j]?) := by
  have hge : mip.IP.FacetNr ≥ 0 := hf
  simp only [DiffOpIdFacet.GenerateMatrix, if_pos hge]
  simp only [IntRange.Size] at hshape
  refine ⟨trivial, ?_, ?_, ?_⟩
  · rw [length_WriteAt]
    simp [AssignAll]
  · intro k hk hc
    rw [WriteAt_getElem?_outside _ _ _ _ (by
      simp only [IntRange.Contains] at hc
      omega)]
    simp [AssignAll, List.getElem?_replicate, hk]
  · intro j hj
    apply WriteAt_getElem?_inside _ _ _ _ hfirst hj
    simp only [AssignAll, List.length_replicate]
    omega

/-- C15 (witness): point `3` on facet `1` of the test element, the row holding `9`
everywhere before the call: the row becomes `0, 0, 4, 6, 0, 0`. -/
theorem DiffOpIdFacet_GenerateMatrix_facet_witness :
    DiffOpIdFacet.GenerateMatrix testElement (testPoint 3 1 VorB.VOL) [9, 9, 9, 9, 9, 9] =
        (none, [0, 0, 4, 6, 0, 0]) ∧
      ((DiffOpIdFacet.GenerateMatrix testElement (testPoint 3 1 VorB.VOL)
          [9, 9, 9, 9, 9, 9]).1 = none ∧
        (DiffOpIdFacet.GenerateMatrix testElement (testPoint 3 1 VorB.VOL)
          [9, 9, 9, 9, 9, 9]).2.length = [9, 9, 9, 9, 9, (9 : Int)].length ∧
        (∀ k : Nat, k < [9, 9, 9, 9, 9, (9 : Int)].length →
          ¬ (testElement.GetFacetDofs (testPoint 3 1 VorB.VOL).IP.FacetNr).Contains (k : Int) →
          (DiffOpIdFacet.GenerateMatrix testElement (testPoint 3 1 VorB.VOL)
            [9, 9, 9, 9, 9, 9]).2[k]? = some 0) ∧
        (∀ j : Nat,
          j < ((testElement.Facet (testPoint 3 1 VorB.VOL).IP.FacetNr).CalcShape
            (testPoint 3 1 VorB.VOL).IP).length →
          (DiffOpIdFacet.GenerateMatrix testElement (testPoint 3 1 VorB.VOL)
              [9, 9, 9, 9, 9, 9]).2[
              (testElement.GetFacetDofs (testPoint 3 1 VorB.VOL).IP.FacetNr).first.toNat + j]? =
            ((testElement.Facet (testPoint 3 1 VorB.VOL).IP.FacetNr).CalcShape
              (testPoint 3 1 VorB.VOL).IP)[j]?)) :=
  ⟨rfl,
    DiffOpIdFacet_GenerateMatrix_facet testElement (testPoint 3 1 VorB.VOL)
      [9, 9, 9, 9, 9, 9] (by decide) (by decide) (by decide) (by decide)⟩

/-! ## C16: pointwise evaluation without a facet index -/

/-- C16: for a point with facet index `f < 0`, `DiffOpIdFacet::GenerateMatrix` throws
exactly when the codimension context is not `BND`, and then it throws "cannot evaluate
facet-fe inside element" and leaves the row alone; in the context `BND` it returns normally
and has written the element's own shape values into the row from entry 0 on.
`DiffOpIdFacetSurface::GenerateMatrix` throws "cannot evaluate facet-fe inside element" in
every context, `BND` included, and leaves the row alone. -/
theorem GenerateMatrix_without_facet {P R : Type} [Zero R]
    (bfel : FacetVolumeFiniteElement P R) (mip : MappedIntegrationPoint P) (mat : List R)
    (hf : mip.IP.FacetNr < 0) :
    ((∃ e, (DiffOpIdFacet.GenerateMatrix bfel mip mat).1 = some e) ↔ mip.VB ≠ VorB.BND) ∧
      (mip.VB ≠ VorB.BND →
        DiffOpIdFacet.GenerateMatrix bfel mip mat =
          (some (Exception.Exception "cannot evaluate facet-fe inside element"), mat)) ∧
      (mip.VB = VorB.BND →
        DiffOpIdFacet.GenerateMatrix bfel mip mat =
          (none, WriteAt mat 0 (bfel.CalcShape mip.IP))) ∧
      DiffOpIdFacetSurface.GenerateMatrix bfel mip mat =
        (some (Exception.Exception "cannot evaluate facet-fe inside element"), mat) := by
  have hge : ¬ mip.IP.FacetNr ≥ 0 := by omega
  refine ⟨?_, ?_, ?_, ?_⟩
  · by_cases hvb : mip.VB = VorB.BND
    · simp [DiffOpIdFacet.GenerateMatrix, hge, hvb]
    · simp [DiffOpIdFacet.GenerateMatrix, hge, hvb]
  · intro hvb
    simp [DiffOpIdFacet.GenerateMatrix, hge, hvb]
  · intro hvb
    simp [DiffOpIdFacet.GenerateMatrix, hge, hvb]
  · simp [DiffOpIdFacetSurface.GenerateMatrix, hge]

/-- C16 (witness): point `7` without facet index on the test element: in the context `BND`
the facet-interior operator writes the six shape values `1, 2, 3, 4, 5, 7`, in the context
`VOL` it throws, and the facet-surface operator throws in the context `BND`. -/
theorem GenerateMatrix_without_facet_witness :
    (testPoint 7 (-1) VorB.BND).IP.FacetNr < 0 ∧
      DiffOpIdFacet.GenerateMatrix testElement (testPoint 7 (-1) VorB.BND)
          [9, 9, 9, 9, 9, 9] = (none, [1, 2, 3, 4, 5, 7]) ∧
      DiffOpIdFacet.GenerateMatrix testElement (testPoint 7 (-1) VorB.VOL)
          [9, 9, 9, 9, 9, 9] =
        (some (Exception.Exception "cannot evaluate facet-fe inside element"),
          [9, 9, 9, 9, 9, 9]) ∧
      DiffOpIdFacetSurface.GenerateMatrix testElement (testPoint 7 (-1) VorB.BND)
          [9, 9, 9, 9, 9, 9] =
        (some (Exception.Exception "cannot evaluate facet-fe inside element"),
          [9, 9, 9, 9, 9, 9]) :=
  ⟨by decide, rfl, rfl,
    (GenerateMatrix_without_facet testElement (testPoint 7 (-1) VorB.BND)
      [9, 9, 9, 9, 9, 9] (by decide)).2.2.2⟩

/-! ## C17: batched entry points without a facet index -/

/-- C17 (amended): if the first point of the batch has facet index `< 0`, each of the three
batched entry points of the facet-surface operator throws and leaves its output as it was.
Batched matrix generation throws an `ExceptionNOSIMD` ("facet-simd-bnd not ready"), while
`ApplySIMDIR` and `AddTransSIMDIR` throw a plain `Exception` ("cannot evaluate facet-fe
inside element, ..."), which is not an `ExceptionNOSIMD`. -/
theorem batched_without_facet {P R : Type} [CommSemiring R]
    (bfel : FacetVolumeFiniteElement P R) (mir : SIMD_BaseMappedIntegrationRule P)
    (ip : IntegrationPoint P) (rest : List (IntegrationPoint P)) (mat : List (List R))
    (x y : List R) (hir : mir.IR = ip :: rest) (hf : ip.FacetNr < 0) :
    DiffOpIdFacetSurface.GenerateMatrixSIMDIR bfel mir mat =
        (some (Exception.ExceptionNOSIMD "facet-simd-bnd not ready"), mat) ∧
      DiffOpIdFacetSurface.ApplySIMDIR bfel mir x y =
        (some (Exception.Exception "cannot evaluate facet-fe inside element, apply simd"),
          y) ∧
      DiffOpIdFacetSurface.AddTransSIMDIR bfel mir y x =
        (some (Exception.Exception
          "cannot evaluate facet-fe inside element, add trans simd"), x) ∧
      (Exception.ExceptionNOSIMD "facet-simd-bnd not ready").IsNOSIMD = true ∧
      (Exception.Exception "cannot evaluate facet-fe inside element, apply simd").IsNOSIMD =
        false ∧
      (Exception.Exception
        "cannot evaluate facet-fe inside element, add trans simd").IsNOSIMD = false := by
  have hnr : mir.FirstFacetNr = ip.FacetNr := by
    simp [SIMD_BaseMappedIntegrationRule.FirstFacetNr, hir]
  have hge : ¬ ip.FacetNr ≥ 0 := by omega
  refine ⟨?_, ?_, ?_, rfl, rfl, rfl⟩
  · simp [DiffOpIdFacetSurface.GenerateMatrixSIMDIR, hnr, hge]
  · simp [DiffOpIdFacetSurface.ApplySIMDIR, hnr, hf]
  · simp [DiffOpIdFacetSurface.AddTransSIMDIR, hnr, hf]

/-- C17 (witness): the batch of three points without facet index on the test element. -/
theorem batched_without_facet_witness :
    (testRule (-1)).FirstFacetNr < 0 ∧
      DiffOpIdFacetSurface.GenerateMatrixSIMDIR testElement (testRule (-1)) [[9, 9, 9]] =
        (some (Exception.ExceptionNOSIMD "facet-simd-bnd not ready"), [[9, 9, 9]]) ∧
      DiffOpIdFacetSurface.ApplySIMDIR testElement (testRule (-1)) [1, 1, 1, 1, 1, 1]
          [9, 9, 9] =
        (some (Exception.Exception "cannot evaluate facet-fe inside element, apply simd"),
          [9, 9, 9]) ∧
      DiffOpIdFacetSurface.AddTransSIMDIR testElement (testRule (-1)) [9, 9, 9]
          [1, 1, 1, 1, 1, 1] =
        (some (Exception.Exception
          "cannot evaluate facet-fe inside element, add trans simd"), [1, 1, 1, 1, 1, 1]) :=
  ⟨by decide,
    (batched_without_facet testElement (testRule (-1)) _ _ [[9, 9, 9]] [1, 1, 1, 1, 1, 1]
      [9, 9, 9] rfl (by decide)).1,
    (batched_without_facet testElement (testRule (-1)) _ _ [[9, 9, 9]] [1, 1, 1, 1, 1, 1]
      [9, 9, 9] rfl (by decide)).2.1,
    (batched_without_facet testElement (testRule (-1)) _ _ [[9, 9, 9]] [1, 1, 1, 1, 1, 1]
      [9, 9, 9] rfl (by decide)).2.2.1⟩

/-- C17 (counterexample): on the batch of three points without facet index, batched matrix
generation throws an `ExceptionNOSIMD` and `ApplySIMDIR` throws an exception that is not an
`ExceptionNOSIMD`: the entry points do not fail with one and the same kind of error. -/
theorem batched_failures_differ_in_kind :
    (DiffOpIdFacetSurface.GenerateMatrixSIMDIR testElement (testRule (-1))
        [[9, 9, 9]]).1 = some (Exception.ExceptionNOSIMD "facet-simd-bnd not ready") ∧
      (DiffOpIdFacetSurface.ApplySIMDIR testElement (testRule (-1)) [1, 1, 1, 1, 1, 1]
        [9, 9, 9]).1 =
        some (Exception.Exception "cannot evaluate facet-fe inside element, apply simd") ∧
      (Exception.ExceptionNOSIMD "facet-simd-bnd not ready").IsNOSIMD = true ∧
      (Exception.Exception "cannot evaluate facet-fe inside element, apply simd").IsNOSIMD =
        false ∧
      Exception.ExceptionNOSIMD "facet-simd-bnd not ready" ≠
        Exception.Exception "cannot evaluate facet-fe inside element, apply simd" :=
  ⟨rfl, rfl, rfl, rfl, by decide⟩

/-! ## C18: the adjoint law of the batched facet-surface operator -/

theorem dot_nil_right {R : Type} [CommSemiring R] (a : List R) : dot a [] = 0 := by
  simp [dot]

theorem dot_cons {R : Type} [CommSemiring R] (u v : R) (a b : List R) :
    dot (u :: a) (v :: b) = u * v + dot a b := by
  simp [dot]

theorem dot_replicate_zero {R : Type} [CommSemiring R] (a : List R) (k : Nat) :
    dot a (List.replicate k 0) = 0 := by
  induction a generalizing k with
  | nil => simp [dot]
  | cons u a ih =>
    cases k with
    | zero => simp [dot]
    | succ k => rw [List.replicate_succ, dot_cons, ih]; simp

theorem dot_append {R : Type} [CommSemiring R] (a1 a2 b1 b2 : List R)
    (h : a1.length = b1.length) : dot (a1 ++ a2) (b1 ++ b2) = dot a1 b1 + dot a2 b2 := by
  simp [dot, List.zipWith_append _ _ _ _ _ h]

theorem length_addScaled {R : Type} [CommSemiring R] (value : R) (acc shape : List R) :
    (addScaled value acc shape).length = acc.length := by
  induction acc generalizing shape with
  | nil => simp [addScaled]
  | cons c cs ih =>
    cases shape with
    | nil => simp [addScaled]
    | cons sh shs => simp [addScaled, ih]

theorem dot_addScaled {R : Type} [CommSemiring R] (value : R) (c : List R) :
    ∀ acc shape : List R, acc.length = c.length → shape.length = c.length →
      dot c (addScaled value acc shape) = dot c acc + dot shape c * value := by
  induction c with
  | nil =>
    intro acc shape ha hs
    have ha0 : acc = [] := List.length_eq_zero.mp ha
    subst ha0
    simp [addScaled, dot]
  | cons u c ih =>
    intro acc shape ha hs
    cases acc with
    | nil => cases ha
    | cons a acc =>
      cases shape with
      | nil => cases hs
      | cons sh shape =>
        simp only [List.length_cons, Nat.add_right_cancel_iff] at ha hs
        rw [addScaled, dot_cons, dot_cons, dot_cons, ih acc shape ha hs]
        ring

theorem length_AddTrans {P R : Type} [CommSemiring R] (fe : FacetElement P R)
    (ir : List (IntegrationPoint P)) :
    ∀ values coefs : List R, (fe.AddTrans ir values coefs).length = coefs.length := by
  induction ir with
  | nil => intro values coefs; simp [FacetElement.AddTrans]
  | cons ip ir ih =>
    intro values coefs
    cases values with
    | nil => simp [FacetElement.AddTrans]
    | cons y values =>
      have h := ih values (addScaled y coefs (fe.CalcShape ip))
      simp only [FacetElement.AddTrans] at h
      simp only [FacetElement.AddTrans, List.zip_cons_cons, List.foldl_cons]
      rw [h, length_addScaled]

theorem dot_AddTrans {P R : Type} [CommSemiring R] (fe : FacetElement P R) (c : List R)
    (ir : List (IntegrationPoint P)) :
    ∀ values acc : List R, (∀ ip ∈ ir, (fe.CalcShape ip).length = c.length) →
      acc.length = c.length →
      dot c (fe.AddTrans ir values acc) =
        dot c acc + (List.zipWith (fun ip y => dot (fe.CalcShape ip) c * y) ir values).sum := by
  induction ir with
  | nil => intro values acc _ _; simp [FacetElement.AddTrans]
  | cons ip ir ih =>
    intro values acc hs ha
    cases values with
    | nil => simp [FacetElement.AddTrans]
    | cons y values =>
      have hip := hs ip (List.mem_cons_self _ _)
      have h := ih values (addScaled y acc (fe.CalcShape ip))
        (fun q hq => hs q (List.mem_cons_of_mem _ hq))
        (by rw [length_addScaled]; exact ha)
      simp only [FacetElement.AddTrans] at h
      simp only [FacetElement.AddTrans, List.zip_cons_cons, List.foldl_cons,
        List.zipWith_cons_cons, List.sum_cons]
      rw [h, dot_addScaled y c acc _ ha hip]
      ring

theorem dot_Evaluate {P R : Type} [CommSemiring R] (fe : FacetElement P R) (coefs : List R)
    (ir : List (IntegrationPoint P)) (values : List R) :
    dot (fe.Evaluate ir coefs) values =
      (List.zipWith (fun ip y => dot (fe.CalcShape ip) coefs * y) ir values).sum := by
  simp [dot, FacetElement.Evaluate, List.zipWith_map_left]

theorem WriteAt_zero_eq {α : Type} (a vals : List α) (h : vals.length = a.length) :
    WriteAt a 0 vals = vals := by
  apply List.ext_getElem?
  intro k
  by_cases hk : k < vals.length
  · have := WriteAt_getElem?_inside vals a 0 k (le_refl _) hk (by simpa using h ▸ hk)
    simpa using this
  · rw [List.getElem?_eq_none (by rw [length_WriteAt]; omega),
      List.getElem?_eq_none (by omega)]

theorem WriteAt_zeros {R : Type} [Zero R] (n : Nat) (first : Int) (vals : List R)
    (h0 : 0 ≤ first) (hin : first.toNat + vals.length ≤ n) :
    WriteAt (List.replicate n (0 : R)) first vals =
      List.replicate first.toNat 0 ++
        (vals ++ List.replicate (n - first.toNat - vals.length) 0) := by
  apply List.ext_getElem?
  intro k
  by_cases h1 : k < first.toNat
  · rw [WriteAt_getElem?_outside _ _ _ _ (by omega),
      List.getElem?_append_left (by simpa using h1)]
    simp [List.getElem?_replicate, h1]
    omega
  · by_cases h2 : k < first.toNat + vals.length
    · obtain ⟨j, rfl⟩ : ∃ j, k = first.toNat + j := ⟨k - first.toNat, by omega⟩
      rw [WriteAt_getElem?_inside _ _ _ _ h0 (by omega) (by simp; omega),
        List.getElem?_append_right (by simp),
        List.getElem?_append_left (by simp; omega)]
      simp
    · rw [WriteAt_getElem?_outside _ _ _ _ (by omega),
        List.getElem?_append_right (by simp; omega),
        List.getElem?_append_right (by simp; omega)]
      simp only [List.getElem?_replicate, List.length_replicate]
      by_cases h3 : k < n
      · rw [if_pos h3, if_pos (by omega)]
      · rw [if_neg h3, if_neg (by omega)]

theorem dot_WriteAt_zeros {R : Type} [CommSemiring R] (c vals : List R) (r : IntRange)
    (h0 : 0 ≤ r.first) (hnext : r.next ≤ (c.length : Int))
    (hlen : (vals.length : Int) = r.Size) :
    dot c (WriteAt (List.replicate c.length (0 : R)) r.first vals) = dot (Range c r) vals := by
  simp only [IntRange.Size] at hlen
  have hm : r.Size.toNat = vals.length := by
    simp only [IntRange.Size]
    omega
  rw [WriteAt_zeros _ _ _ h0 (by omega)]
  have hc : c = List.take r.first.toNat c ++
      (List.take vals.length (List.drop r.first.toNat c) ++
        List.drop vals.length (List.drop r.first.toNat c)) := by
    rw [List.take_append_drop, List.take_append_drop]
  conv_lhs => rw [hc]
  rw [dot_append _ _ _ _ (by simp; omega), dot_append _ _ _ _ (by simp; omega),
    dot_replicate_zero, dot_replicate_zero, Range, hm]
  simp

theorem Range_replicate_zero {R : Type} [Zero R] (n : Nat) (r : IntRange)
    (h0 : 0 ≤ r.first) (hnext : r.next ≤ (n : Int)) :
    Range (List.replicate n (0 : R)) r = List.replicate r.Size.toNat 0 := by
  simp only [Range, IntRange.Size, List.drop_replicate, List.take_replicate]
  congr 1
  omega

theorem length_Range_le {α : Type} (x : List α) (r : IntRange) :
    (Range x r).length ≤ r.Size.toNat := by
  simp [Range]

theorem Range_congr {α : Type} (x x2 : List α) (r : IntRange) (h0 : 0 ≤ r.first)
    (h : ∀ k : Nat, r.Contains (k : Int) → x2[k]? = x[k]?) : Range x2 r = Range x r := by
  apply List.ext_getElem?
  intro j
  simp only [Range, List.getElem?_take, List.getElem?_drop]
  by_cases hj : j < r.Size.toNat
  · rw [if_pos hj, if_pos hj]
    apply h
    simp only [IntRange.Size] at hj
    simp only [IntRange.Contains]
    omega
  · rw [if_neg hj, if_neg hj]

theorem FirstFacetNr_of_shared {P : Type} (mir : SIMD_BaseMappedIntegrationRule P) (f : Int)
    (hne : mir.IR ≠ []) (hshare : ∀ ip ∈ mir.IR, ip.FacetNr = f) : mir.FirstFacetNr = f := by
  unfold SIMD_BaseMappedIntegrationRule.FirstFacetNr
  cases hir : mir.IR with
  | nil => exact absurd hir hne
  | cons ip rest =>
    simp only
    exact hshare ip (by rw [hir]; exact List.mem_cons_self _ _)

/-- C18: for a non-empty batch of points sharing the facet index `f ≥ 0`, where facet `f`
owns the DOF sub-range `GetFacetDofs(f)` inside the coefficient vector and has as many shape
functions as the sub-range has entries, both batched operations return normally and, in
exact arithmetic (scalars in a commutative semiring), `dot (Evaluate (c), y) =
dot (c, AdjointAccumulate (y))` for every `y`, with the accumulation started from the zero
vector.  `Evaluate` gives the same result for any two
coefficient vectors that agree on the sub-range, and `AdjointAccumulate` leaves every
coefficient outside the sub-range as it was. -/
theorem adjoint_law {P R : Type} [CommSemiring R] (bfel : FacetVolumeFiniteElement P R)
    (mir : SIMD_BaseMappedIntegrationRule P) (f : Int) (coef y out : List R)
    (hf : 0 ≤ f) (hne : mir.IR ≠ []) (hshare : ∀ ip ∈ mir.IR, ip.FacetNr = f)
    (hfirst : 0 ≤ (bfel.GetFacetDofs f).first)
    (hnext : (bfel.GetFacetDofs f).next ≤ (coef.length : Int))
    (hshape : ∀ ip ∈ mir.IR,
      (((bfel.Facet f).CalcShape ip).length : Int) = (bfel.GetFacetDofs f).Size)
    (hout : out.length = mir.Size) :
    (DiffOpIdFacetSurface.ApplySIMDIR bfel mir coef out).1 = none ∧
      (DiffOpIdFacetSurface.AddTransSIMDIR bfel mir y (List.replicate coef.length 0)).1 = none ∧
      dot (DiffOpIdFacetSurface.ApplySIMDIR bfel mir coef out).2 y =
        dot coef (DiffOpIdFacetSurface.AddTransSIMDIR bfel mir y (List.replicate coef.length 0)).2 ∧
      (∀ c2 : List R,
        (∀ k : Nat, (bfel.GetFacetDofs f).Contains (k : Int) → c2[k]? = coef[k]?) →
        DiffOpIdFacetSurface.ApplySIMDIR bfel mir c2 out =
          DiffOpIdFacetSurface.ApplySIMDIR bfel mir coef out) ∧
      (∀ (x : List R) (k : Nat), ¬ (bfel.GetFacetDofs f).Contains (k : Int) →
        (DiffOpIdFacetSurface.AddTransSIMDIR bfel mir y x).2[k]? = x[k]?) := by
  have hnr := FirstFacetNr_of_shared mir f hne hshare
  have hlt : ¬ f < 0 := by omega
  obtain ⟨ip0, hip0⟩ := List.exists_mem_of_ne_nil _ hne
  have hsize : 0 ≤ (bfel.GetFacetDofs f).Size := by
    rw [← hshape ip0 hip0]
    positivity
  have hsizeNat : ((bfel.GetFacetDofs f).Size.toNat : Int) = (bfel.GetFacetDofs f).Size :=
    Int.toNat_of_nonneg hsize
  have hRlen : (Range coef (bfel.GetFacetDofs f)).length = (bfel.GetFacetDofs f).Size.toNat := by
    simp only [IntRange.Size] at hsize
    simp only [Range, IntRange.Size, List.length_take, List.length_drop]
    omega
  have hshapeR : ∀ ip ∈ mir.IR, ((bfel.Facet f).CalcShape ip).length =
      (Range coef (bfel.GetFacetDofs f)).length := by
    intro ip hip
    have := hshape ip hip
    rw [hRlen]
    omega
  simp only [DiffOpIdFacetSurface.ApplySIMDIR, DiffOpIdFacetSurface.AddTransSIMDIR, hnr,
    if_neg hlt]
  refine ⟨trivial, trivial, ?_, ?_, ?_⟩
  · rw [WriteAt_zero_eq _ _ (by
        simp only [FacetElement.Evaluate, List.length_map]
        exact hout.symm),
      dot_Evaluate, Range_replicate_zero _ _ hfirst hnext,
      dot_WriteAt_zeros coef _ _ hfirst hnext (by
        rw [length_AddTrans, List.length_replicate]
        exact hsizeNat),
      dot_AddTrans _ _ _ _ _ hshapeR (by rw [List.length_replicate, hRlen]),
      dot_replicate_zero, zero_add]
  · intro c2 hc2
    rw [Range_congr coef c2 _ hfirst hc2]
  · intro x k hk
    apply WriteAt_getElem?_outside
    have hl := length_Range_le x (bfel.GetFacetDofs f)
    rw [length_AddTrans]
    simp only [IntRange.Contains, IntRange.Size] at hk hl hsize
    omega

/-- C18 (witness): facet `1` of the test element (DOFs `2, 3`), the points `0, 1, 2`,
coefficients `1, ..., 6` and `y = (1, 1, 2)`: `Evaluate` gives `15, 22, 29`, the accumulation
from zero gives `0, 0, 9, 17, 0, 0`, and both dot products are `95`. -/
theorem adjoint_law_witness :
    DiffOpIdFacetSurface.ApplySIMDIR testElement (testRule 1) [1, 2, 3, 4, 5, 6] [0, 0, 0] =
        (none, [15, 22, 29]) ∧
      DiffOpIdFacetSurface.AddTransSIMDIR testElement (testRule 1) [1, 1, 2]
          (List.replicate 6 0) = (none, [0, 0, 9, 17, 0, 0]) ∧
      dot [15, 22, 29] [1, 1, (2 : Int)] = 95 ∧
      dot [1, 2, 3, 4, 5, 6] [0, 0, 9, 17, 0, (0 : Int)] = 95 ∧
      dot (DiffOpIdFacetSurface.ApplySIMDIR testElement (testRule 1) [1, 2, 3, 4, 5, 6]
          [0, 0, 0]).2 [1, 1, 2] =
        dot [1, 2, 3, 4, 5, 6]
          (DiffOpIdFacetSurface.AddTransSIMDIR testElement (testRule 1) [1, 1, 2]
            (List.replicate [1, 2, 3, 4, 5, (6 : Int)].length 0)).2 :=
  ⟨rfl, rfl, rfl, rfl,
    (adjoint_law testElement (testRule 1) 1 [1, 2, 3, 4, 5, 6] [1, 1, 2] [0, 0, 0]
      (by decide) (by simp [testRule]) (by decide) (by decide) (by decide) (by decide)
      rfl).2.2.1⟩

end ngcomp

namespace netgen

/-! ## C20: the range partition of ParallelFor -/

theorem toList_append (a b c : Int) (hab : a ≤ b) (hbc : b ≤ c) :
    ngcomp.IntRange.toList { first := a, next := b } ++
        ngcomp.IntRange.toList { first := b, next := c } =
      ngcomp.IntRange.toList { first := a, next := c } := by
  simp only [ngcomp.IntRange.toList, ngcomp.IntRange.Size]
  have hsplit : (c - a).toNat = (b - a).toNat + (c - b).toNat := by omega
  rw [hsplit, List.range_add, List.map_append, List.map_map]
  congr 1
  apply List.map_congr_left
  intro j _
  simp only [Function.comp_apply]
  push_cast
  omega

theorem concat_consecutive (bound : Nat → Int) (k : Nat)
    (hmono : ∀ i, i < k → bound i ≤ bound (i + 1)) :
    bound 0 ≤ bound k ∧
      (List.range k).flatMap
          (fun i => ngcomp.IntRange.toList { first := bound i, next := bound (i + 1) }) =
        ngcomp.IntRange.toList { first := bound 0, next := bound k } := by
  induction k with
  | zero => simp [ngcomp.IntRange.toList, ngcomp.IntRange.Size]
  | succ k ih =>
    obtain ⟨h1, h2⟩ := ih (fun i hi => hmono i (by omega))
    have h3 := hmono k (by omega)
    refine ⟨le_trans h1 h3, ?_⟩
    rw [List.range_succ, List.flatMap_append, h2]
    simp only [List.flatMap_cons, List.flatMap_nil, List.append_nil]
    exact toList_append _ _ _ h1 h3

theorem threadBound_eq (first next : Int) (n i : Nat) (h : first ≤ next) :
    threadBound first next n i = first + ((next - first) * (i : Int)) / (n : Int) := by
  unfold threadBound
  rw [Int.tdiv_eq_ediv (mul_nonneg (by omega) (by positivity)) (by positivity)]

theorem threadBound_zero (first next : Int) (n : Nat) : threadBound first next n 0 = first := by
  simp [threadBound]

theorem threadBound_last (first next : Int) (n : Nat) (h : first ≤ next) (hn : 1 ≤ n) :
    threadBound first next n n = next := by
  rw [threadBound_eq _ _ _ _ h, Int.mul_ediv_cancel _ (by omega)]
  omega

theorem threadBound_mono (first next : Int) (n i : Nat) (h : first ≤ next) (hn : 1 ≤ n) :
    threadBound first next n i ≤ threadBound first next n (i + 1) := by
  rw [threadBound_eq _ _ _ _ h, threadBound_eq _ _ _ _ h]
  have hle : (next - first) * (i : Int) ≤ (next - first) * ((i + 1 : Nat) : Int) :=
    mul_le_mul_of_nonneg_left (by push_cast; omega) (by omega)
  have := Int.ediv_le_ediv (by exact_mod_cast hn : (0 : Int) < (n : Int)) hle
  omega

/-- C20: for `first ≤ next` and a thread count `n ≥ 1`, `ParallelFor` invokes the callback
`n` times; the sub-ranges start at `first`, each ends where the next begins and the last
ends at `next`; they are pairwise disjoint, and concatenated in thread order their indices
are exactly `first, ..., next-1`, each index once.  With a thread count of `0` the callback
is never invoked. -/
theorem ParallelFor_partition (first next : Int) (n : Nat) (h : first ≤ next) (hn : 1 ≤ n) :
    (ParallelFor first next n).length = n ∧
      (∀ i, i < n → (ParallelFor first next n)[i]? =
        some (threadBound first next n i, threadBound first next n (i + 1))) ∧
      threadBound first next n 0 = first ∧ threadBound first next n n = next ∧
      (∀ i, i < n → threadBound first next n i ≤ threadBound first next n (i + 1)) ∧
      (ParallelFor first next n).flatMap indicesOf = indicesOf (first, next) ∧
      ((ParallelFor first next n).flatMap indicesOf).Nodup ∧
      List.Pairwise (fun c d => List.Disjoint (indicesOf c) (indicesOf d))
        (ParallelFor first next n) ∧
      ParallelFor first next 0 = [] := by
  have hcat : (ParallelFor first next n).flatMap indicesOf = indicesOf (first, next) := by
    have hc := (concat_consecutive (threadBound first next n) n
      (fun i _ => threadBound_mono first next n i h hn)).2
    rw [threadBound_zero, threadBound_last _ _ _ h hn] at hc
    simp only [ParallelFor, indicesOf, List.flatMap_map]
    exact hc
  have hnodup : ((ParallelFor first next n).flatMap indicesOf).Nodup := by
    rw [hcat]
    exact ngcomp.nodup_IntRange_toList _
  refine ⟨by simp [ParallelFor], ?_, threadBound_zero _ _ _, threadBound_last _ _ _ h hn,
    fun i _ => threadBound_mono first next n i h hn, hcat, hnodup,
    (List.nodup_flatMap.mp hnodup).2, by simp [ParallelFor]⟩
  intro i hi
  simp [ParallelFor, List.getElem?_range, hi]

/-- C20 (witness): the range `[3, 13)` on four threads is cut into `[3, 5)`, `[5, 8)`,
`[8, 10)`, `[10, 13)`. -/
theorem ParallelFor_partition_witness :
    (3 : Int) ≤ 13 ∧ 1 ≤ 4 ∧
      ParallelFor 3 13 4 = [(3, 5), (5, 8), (8, 10), (10, 13)] ∧
      (ParallelFor 3 13 4).flatMap indicesOf = [3, 4, 5, 6, 7, 8, 9, 10, 11, 12] ∧
      (ParallelFor 3 13 4).flatMap indicesOf = indicesOf (3, 13) :=
  ⟨by decide, by decide, by decide, by decide,
    (ParallelFor_partition 3 13 4 (by decide) (by decide)).2.2.2.2.2.1⟩

end netgen
